import Mathlib

/-!
Shallow embedding of the FBX binary serialization engine of wow.export
(src/js/3D/writers/FBXWriter.js): the node/property data model, the
two-pass size calculator (`calculateNodeTreeSize`) and writer
(`writeNode` / `write`), and the document tree builder (`buildNodeTree`).

JavaScript strings are modelled as lists of Unicode code points, so that
both `string.length` (UTF-16 code-unit count) and `Buffer.byteLength`
(UTF-8 byte count) are expressible — the source uses both.  The byte
buffer (`BufferWrapper`, whose source file is not part of the provided
sources) is modelled from the spec: a byte list supporting little-endian
fixed-width writes, raw-byte writes and UTF-8 string writes, with
`offset` equal to the number of bytes written so far.
-/

namespace FBX

/-- UTF-8 encoding of a single Unicode code point. -/
def utf8Bytes (c : Nat) : List Nat :=
  if c < 0x80 then [c]
  else if c < 0x800 then [0xC0 + c / 64, 0x80 + c % 64]
  else if c < 0x10000 then [0xE0 + c / 4096, 0x80 + (c / 64) % 64, 0x80 + c % 64]
  else [0xF0 + c / 262144, 0x80 + (c / 4096) % 64, 0x80 + (c / 64) % 64, 0x80 + c % 64]

/-- UTF-8 encoding of a JavaScript string (list of code points). -/
def utf8Encode : List Nat → List Nat
  | [] => []
  | c :: cs => utf8Bytes c ++ utf8Encode cs

/-- `Buffer.byteLength(s)`: the UTF-8 byte length of a string. -/
def byteLength (s : List Nat) : Nat := (utf8Encode s).length

/-- `s.length` for a JavaScript string: the number of UTF-16 code units
(code points at or above U+10000 take two units). -/
def utf16Len : List Nat → Nat
  | [] => 0
  | c :: cs => (if c < 0x10000 then 1 else 2) + utf16Len cs

/-- Convert a Lean string literal into the code-point model of a JS string. -/
def jstr (s : String) : List Nat := s.data.map Char.toNat

/-- Decimal digits of a number, as ASCII codes (JS number-to-string for
the nonnegative integers used by the date formatting code). -/
def natStr (n : Nat) : List Nat := (Nat.toDigits 10 n).map Char.toNat

/-- `String.prototype.padStart(n, '0')`. -/
def padStart (n : Nat) (s : List Nat) : List Nat :=
  List.replicate (n - s.length) 48 ++ s

/-- The property type descriptors (the `PROPERTY_*` constants of the
source, lines 11-23).  Identity comparison of the JS descriptor objects
corresponds to constructor equality. -/
inductive PropertyType where
  | int16 | int32 | int64 | float | double | boolean | string | binary
  | arrInt32 | arrInt64 | arrFloat | arrDouble | arrBoolean
deriving DecidableEq, Repr

/-- The `code` field of each descriptor. -/
def ptCode : PropertyType → Nat
  | .int16 => 0x59
  | .int32 => 0x49
  | .int64 => 0x4C
  | .float => 0x46
  | .double => 0x44
  | .boolean => 0x43
  | .string => 0x53
  | .binary => 0x52
  | .arrInt32 => 0x69
  | .arrInt64 => 0x6C
  | .arrFloat => 0x66
  | .arrDouble => 0x64
  | .arrBoolean => 0x62

/-- The `isArray` field of each descriptor. -/
def ptIsArray : PropertyType → Bool
  | .arrInt32 | .arrInt64 | .arrFloat | .arrDouble | .arrBoolean => true
  | _ => false

/-- The `size` field of each descriptor (fixed scalar width, or element
width for array descriptors).  The string and binary descriptors carry no
`size` field in the source and no code path reads it for them; they are
mapped to 0 here. -/
def ptSize : PropertyType → Nat
  | .int16 => 2
  | .int32 => 4
  | .int64 => 8
  | .float => 4
  | .double => 8
  | .boolean => 1
  | .string => 0
  | .binary => 0
  | .arrInt32 => 4
  | .arrInt64 => 8
  | .arrFloat => 4
  | .arrDouble => 8
  | .arrBoolean => 1

/-- Property values.  Numbers destined for integer properties are `num`;
floating-point values are carried as their IEEE-754 bit pattern (`bits`),
which is what the little-endian buffer write emits; strings are code-point
lists; binary values are raw byte lists; `arr` is a homogeneous array
value (never successfully sized or written by the engine). -/
inductive PValue where
  | num (n : Int)
  | bits (w : Nat)
  | str (s : List Nat)
  | buf (b : List Nat)
  | arr (xs : List Int)
deriving DecidableEq, Repr

/-- A property: a type/value pair as allocated by `addProperty`. -/
structure Property where
  type : PropertyType
  value : PValue
deriving DecidableEq, Repr

def strOf : PValue → List Nat
  | .str s => s
  | _ => []

def bufOf : PValue → List Nat
  | .buf b => b
  | _ => []

def numOf : PValue → Int
  | .num n => n
  | _ => 0

def bitsOf : PValue → Nat
  | .bits w => w
  | _ => 0

/-- JavaScript truthiness of a property value (used by the boolean
property write `value ? 0x01 : 0x00`). -/
def truthy : PValue → Bool
  | .num n => n != 0
  | .bits w => w != 0
  | .str s => s != []
  | .buf _ => true
  | .arr _ => true

/-- An `FBXNodeRecord` after construction: name, insertion-ordered
properties, insertion-ordered children.  The JS `Set` collections keep
insertion order; their contents are modelled as lists (the identity-keyed
insertion semantics of `Set.add` itself is modelled separately). -/
inductive FBXNodeRecord where
  | mk (name : List Nat) (properties : List Property) (children : List FBXNodeRecord)

def FBXNodeRecord.name : FBXNodeRecord → List Nat
  | .mk n _ _ => n

def FBXNodeRecord.properties : FBXNodeRecord → List Property
  | .mk _ ps _ => ps

def FBXNodeRecord.children : FBXNodeRecord → List FBXNodeRecord
  | .mk _ _ cs => cs

/-- A node annotated by the size calculator with `size` (the source's
`node.size`, the total serialized byte length of the subtree) and
`propertySize` (`node.propertySize`, the byte length of the property
list). -/
inductive SizedNode where
  | mk (name : List Nat) (properties : List Property) (children : List SizedNode)
      (size : Nat) (propertySize : Nat)

def SizedNode.name : SizedNode → List Nat
  | .mk n _ _ _ _ => n

def SizedNode.properties : SizedNode → List Property
  | .mk _ ps _ _ _ => ps

def SizedNode.children : SizedNode → List SizedNode
  | .mk _ _ cs _ _ => cs

def SizedNode.size : SizedNode → Nat
  | .mk _ _ _ s _ => s

def SizedNode.propertySize : SizedNode → Nat
  | .mk _ _ _ _ p => p

/-- Sum of the `size` annotations of a list of sized nodes. -/
def childSizeSum (l : List SizedNode) : Nat := (l.map SizedNode.size).sum

/-- The per-property contribution of `calculateNodeTreeSize` (source
lines 666-678): 1 byte for the type code, then 4 + UTF-8 byte length for
a string, 4 + raw length for binary, and the fixed width for the other
scalar types.  For an array descriptor the source evaluates
`type.size * type.value.length` where the descriptor has no `value`
field, so the sizing pass throws a TypeError; this is modelled as
`none`. -/
def propEncodedSize (p : Property) : Option Nat :=
  match p.type with
  | .string => some (1 + (4 + byteLength (strOf p.value)))
  | .binary => some (1 + (4 + (bufOf p.value).length))
  | t => if ptIsArray t then none else some (1 + ptSize t)

/-- Total encoded size of a property list (the source's property loop). -/
def propListSize : List Property → Option Nat
  | [] => some 0
  | p :: ps =>
    match propEncodedSize p, propListSize ps with
    | some a, some b => some (a + b)
    | _, _ => none

mutual

/-- `calculateNodeTreeSize` on a single node (source lines 659-694):
header cost `4 + 4 + 4 + 1 + node.name.length` (note: `name.length`, the
UTF-16 code-unit count), plus the property list, plus the children, plus
a 13-byte trailer when the node has at least one child.  Returns the node
annotated with `size` and `propertySize`, or `none` if sizing throws. -/
def sizeNode : FBXNodeRecord → Option SizedNode
  | .mk name ps cs =>
    match propListSize ps, sizeChildren cs with
    | some psize, some scs =>
      some (.mk name ps scs
        (4 + 4 + 4 + 1 + utf16Len name + psize + childSizeSum scs +
          (if cs.length > 0 then 13 else 0))
        psize)
    | _, _ => none

/-- `calculateNodeTreeSize` over a collection of nodes (the `Set`
branch, source lines 656-658): size each member in order. -/
def sizeChildren : List FBXNodeRecord → Option (List SizedNode)
  | [] => some []
  | c :: cs =>
    match sizeNode c, sizeChildren cs with
    | some s, some ss => some (s :: ss)
    | _, _ => none

end

/-- `v % 2^w` as a natural number, for two's-complement little-endian
integer writes. -/
def toU (w : Nat) (v : Int) : Nat := (v % ((2 : Int) ^ w)).toNat

/-- `n` little-endian bytes of `v`. -/
def leBytes : Nat → Nat → List Nat
  | 0, _ => []
  | n + 1, v => v % 256 :: leBytes n (v / 256)

/-- The bytes emitted for one property by `writeNode` (source lines
713-737): the 1-byte type code followed by the payload.  The source
switch has no case for array descriptors (`// ToDo: Array support.`), so
for them nothing follows the type code. -/
def writeProp (p : Property) : List Nat :=
  ptCode p.type ::
    match p.type with
    | .int16 => leBytes 2 (toU 16 (numOf p.value))
    | .int32 => leBytes 4 (toU 32 (numOf p.value))
    | .int64 => leBytes 8 (toU 64 (numOf p.value))
    | .float => leBytes 4 (bitsOf p.value)
    | .double => leBytes 8 (bitsOf p.value)
    | .boolean => [if truthy p.value then 1 else 0]
    | .string => leBytes 4 (byteLength (strOf p.value)) ++ utf8Encode (strOf p.value)
    | .binary => leBytes 4 (bufOf p.value).length ++ bufOf p.value
    | _ => []

/-- The bytes emitted for a property list, in insertion order. -/
def writeProps : List Property → List Nat
  | [] => []
  | p :: ps => writeProp p ++ writeProps ps

/-- The node-record header bytes written by `writeNode` (source lines
705-710): end offset (`buf.offset + node.size`, 32-bit LE), property
count, property list length (`node.propertySize`), name length
(`Buffer.byteLength(node.name)`, one byte) and the UTF-8 name bytes. -/
def nodeHeader (off : Nat) (name : List Nat) (ps : List Property) (size psize : Nat) :
    List Nat :=
  leBytes 4 ((off + size) % 2 ^ 32) ++ leBytes 4 (ps.length % 2 ^ 32) ++
  leBytes 4 (psize % 2 ^ 32) ++ [byteLength name % 256] ++ utf8Encode name

mutual

/-- `writeNode(node, buf)` (source lines 704-748) with `off` the value of
`buf.offset` when the node's header starts: the header, the encoded
properties, the children (each at the offset reached so far), and 13
zero bytes when the node has children. -/
def writeNodeAt (off : Nat) : SizedNode → List Nat
  | .mk name ps cs size psize =>
    nodeHeader off name ps size psize ++ writeProps ps ++
      writeChildrenAt (off + (nodeHeader off name ps size psize).length +
        (writeProps ps).length) cs ++
      (if cs.length > 0 then List.replicate 13 0 else [])

/-- Write a list of sibling nodes in order, advancing the offset past
each one's emitted bytes. -/
def writeChildrenAt (off : Nat) : List SizedNode → List Nat
  | [] => []
  | c :: cs =>
    let b := writeNodeAt off c
    b ++ writeChildrenAt (off + b.length) cs

end

/-- The 27-byte file preamble (source lines 766-774): the magic string
with two trailing spaces and a NUL, the required 0x1A byte, a zero byte,
and the format version 7400 as a 32-bit LE integer. -/
def preamble : List Nat :=
  utf8Encode (jstr "Kaydara FBX Binary  \x00") ++ [0x1A, 0x00] ++ leBytes 4 7400

/-- The serialization pipeline of `write` after the overwrite guard
(source lines 761-779): size the root collection, then emit the preamble
followed by each root node, starting at offset 27. -/
def fbxWrite (roots : List FBXNodeRecord) : Option (List Nat) :=
  match sizeChildren roots with
  | some ss => some (preamble ++ writeChildrenAt 27 ss)
  | none => none

/-- Observable effects of one call to `write(overwrite)` (source lines
754-780).  `destExists` abstracts `generics.fileExists(this.out)` and
`createdDirectory` abstracts `generics.createDirectory` (modelled from
the spec: filesystem helpers are external collaborators).  When
`!overwrite && destExists`, the method returns before creating the
directory, building, sizing, or writing anything. -/
structure WriteEffects where
  createdDirectory : Bool
  bytesWritten : Option (List Nat)
deriving DecidableEq

/-- The `write(overwrite)` entry point over the effect model. -/
def writeOp (overwrite destExists : Bool) (roots : List FBXNodeRecord) : WriteEffects :=
  if !overwrite && destExists then ⟨false, none⟩
  else ⟨true, fbxWrite roots⟩

mutual

/-- Invariant established by the size calculator on its output: the
stored `propertySize` is the property-list size, and the stored `size`
is header + properties + children + trailer. -/
def sizedOk : SizedNode → Bool
  | .mk name ps cs size psize =>
    (propListSize ps == some psize) &&
    (size == 4 + 4 + 4 + 1 + utf16Len name + psize + childSizeSum cs +
      (if cs.length > 0 then 13 else 0)) &&
    sizedOkList cs

def sizedOkList : List SizedNode → Bool
  | [] => true
  | c :: cs => sizedOk c && sizedOkList cs

end

mutual

/-- Every node name in the sized tree has its UTF-16 code-unit count
equal to its UTF-8 byte length (true of every all-ASCII name). -/
def namesAscii : SizedNode → Bool
  | .mk name _ cs _ _ => (utf16Len name == byteLength name) && namesAsciiList cs

def namesAsciiList : List SizedNode → Bool
  | [] => true
  | c :: cs => namesAscii c && namesAsciiList cs

end

mutual

/-- Whether some node of the tree carries a property with an array-typed
descriptor. -/
def hasArrayProp : FBXNodeRecord → Bool
  | .mk _ ps cs => ps.any (fun p => ptIsArray p.type) || hasArrayPropList cs

def hasArrayPropList : List FBXNodeRecord → Bool
  | [] => false
  | c :: cs => hasArrayProp c || hasArrayPropList cs

end

/-- Shorthand for a string property (`addProperty(PROPERTY_STRING, s)`). -/
def sprop (s : List Nat) : Property := ⟨.string, .str s⟩

/-- Shorthand for an Int32 property. -/
def iprop (n : Int) : Property := ⟨.int32, .num n⟩

/-- Shorthand for an Int64 property. -/
def i64prop (n : Int) : Property := ⟨.int64, .num n⟩

/-- Shorthand for a double property carrying an IEEE-754 bit pattern. -/
def dprop (w : Nat) : Property := ⟨.double, .bits w⟩

/-- IEEE-754 bit pattern of the double 0.0. -/
def dbl0 : Nat := 0

/-- IEEE-754 bit pattern of the double 1.0. -/
def dbl1 : Nat := 0x3FF0000000000000

/-- IEEE-754 bit pattern of the double 0.8. -/
def dbl08 : Nat := 0x3FE999999999999A

/-- IEEE-754 bit pattern of the double 24.0. -/
def dbl24 : Nat := 0x4038000000000000

/-- `FBXProperty_Boolean`: a `P` node with properties
`name, 'bool', '', ''` (strings) and `state ? 1 : 0` (Int32). -/
def fbxPropBoolean (name : List Nat) (state : Bool) : FBXNodeRecord :=
  .mk (jstr "P")
    [sprop name, sprop (jstr "bool"), sprop (jstr ""), sprop (jstr ""),
     iprop (if state then 1 else 0)] []

/-- `FBXProperty_Vector3D`. -/
def fbxPropVector3D (name : List Nat) (x y z : Nat) : FBXNodeRecord :=
  .mk (jstr "P")
    [sprop name, sprop (jstr "Vector3D"), sprop (jstr "Vector"), sprop (jstr ""),
     dprop x, dprop y, dprop z] []

/-- `FBXProperty_ColorRGB`. -/
def fbxPropColorRGB (name : List Nat) (r g b : Nat) : FBXNodeRecord :=
  .mk (jstr "P")
    [sprop name, sprop (jstr "ColorRGB"), sprop (jstr "Color"), sprop (jstr ""),
     dprop r, dprop g, dprop b] []

/-- `FBXProperty_URL`. -/
def fbxPropURL (name url : List Nat) : FBXNodeRecord :=
  .mk (jstr "P") [sprop name, sprop (jstr "KString"), sprop (jstr "Url"), sprop url] []

/-- `FBXProperty_Enum`. -/
def fbxPropEnum (name : List Nat) (value : Int) : FBXNodeRecord :=
  .mk (jstr "P")
    [sprop name, sprop (jstr "enum"), sprop (jstr ""), sprop (jstr ""), iprop value] []

/-- `FBXProperty_Double`. -/
def fbxPropDouble (name : List Nat) (value : Nat) : FBXNodeRecord :=
  .mk (jstr "P")
    [sprop name, sprop (jstr "double"), sprop (jstr "Number"), sprop (jstr ""),
     dprop value] []

/-- `FBXProperty_KTime`. -/
def fbxPropKTime (name : List Nat) (value : Int) : FBXNodeRecord :=
  .mk (jstr "P")
    [sprop name, sprop (jstr "KTime"), sprop (jstr "Time"), sprop (jstr ""),
     i64prop value] []

/-- `FBXProperty_KString`. -/
def fbxPropKString (name value : List Nat) : FBXNodeRecord :=
  .mk (jstr "P")
    [sprop name, sprop (jstr "KString"), sprop (jstr ""), sprop (jstr ""), sprop value] []

/-- `FBXProperty_Integer`. -/
def fbxPropInteger (name : List Nat) (value : Int) : FBXNodeRecord :=
  .mk (jstr "P")
    [sprop name, sprop (jstr "int"), sprop (jstr "Integer"), sprop (jstr ""),
     iprop value] []

/-- `FBXProperty_Object`. -/
def fbxPropObject (name : List Nat) : FBXNodeRecord :=
  .mk (jstr "P") [sprop name, sprop (jstr "object"), sprop (jstr ""), sprop (jstr "")] []

/-- `FBXProperty_LCLVector`. -/
def fbxPropLCLVector (name : List Nat) (x y z : Nat) : FBXNodeRecord :=
  .mk (jstr "P")
    [sprop name, sprop name, sprop (jstr ""), sprop (jstr "A"),
     dprop x, dprop y, dprop z] []

/-- Modelled from the spec: the ambient `nw.App.manifest` application
configuration read by the builder (spec §9 directs replacing it with an
explicit configuration value holding name, version and build flavour). -/
structure AppManifest where
  version : List Nat
  flavour : List Nat

/-- The readings of one `new Date()` call: the local and UTC getter
values the builder consumes.  `month` and `utcMonth` are the raw
zero-based getter results (the source adds 1 itself). -/
structure ClockState where
  year : Nat
  month : Nat
  day : Nat
  hours : Nat
  minutes : Nat
  seconds : Nat
  milliseconds : Nat
  utcYear : Nat
  utcMonth : Nat
  utcHours : Nat
  utcMinutes : Nat
  utcSeconds : Nat
  utcMilliseconds : Nat

/-- `getApplicationString()`: `'wow.export v%s %s'` with the manifest
version and flavour. -/
def appString (m : AppManifest) : List Nat :=
  jstr "wow.export v" ++ m.version ++ jstr " " ++ m.flavour

/-- `buildCreationTimeStampNode()`. -/
def buildCreationTimeStampNode (c : ClockState) : FBXNodeRecord :=
  .mk (jstr "CreationTimeStamp") []
    [.mk (jstr "Version") [iprop 1000] [],
     .mk (jstr "Year") [iprop c.year] [],
     .mk (jstr "Month") [iprop (c.month + 1)] [],
     .mk (jstr "Day") [iprop c.day] [],
     .mk (jstr "Hour") [iprop c.hours] [],
     .mk (jstr "Minute") [iprop c.minutes] [],
     .mk (jstr "Second") [iprop c.seconds] [],
     .mk (jstr "Millisecond") [iprop c.milliseconds] []]

/-- One entry of the object passed to `createCompound`. -/
structure CompoundEntry where
  key : List Nat
  ctype : List Nat
  cvalue : List Nat

/-- `createCompound(name, properties)`: the `Compound` head node
followed by one `P` node per entry, keyed `name|key`. -/
def createCompound (name : List Nat) (entries : List CompoundEntry) : List FBXNodeRecord :=
  FBXNodeRecord.mk (jstr "P")
    [sprop name, sprop (jstr "Compound"), sprop (jstr ""), sprop (jstr "")] [] ::
  entries.map (fun e =>
    FBXNodeRecord.mk (jstr "P")
      [sprop (name ++ jstr "|" ++ e.key), sprop e.ctype, sprop (jstr ""),
       sprop (jstr ""), sprop e.cvalue] [])

/-- The `timeGMT` string of `buildSceneInfoNode` (source lines 262-271):
`util.format('%s/%s/%s %s:%s:%s:%s', ...)` over local day (2-padded),
UTC month + 1 (2-padded), UTC year, UTC hours (unpadded), UTC minutes,
seconds (2-padded) and milliseconds (3-padded). -/
def sceneTimeGMT (c : ClockState) : List Nat :=
  padStart 2 (natStr c.day) ++ jstr "/" ++ padStart 2 (natStr (c.utcMonth + 1)) ++
  jstr "/" ++ natStr c.utcYear ++ jstr " " ++ natStr c.utcHours ++ jstr ":" ++
  padStart 2 (natStr c.utcMinutes) ++ jstr ":" ++ padStart 2 (natStr c.utcSeconds) ++
  jstr ":" ++ padStart 3 (natStr c.utcMilliseconds)

/-- `buildSceneInfoNode()`.  `outBasename` abstracts
`path.basename(this.out)`. -/
def buildSceneInfoNode (m : AppManifest) (c : ClockState) (outBasename : List Nat) :
    FBXNodeRecord :=
  let base := jstr "/" ++ outBasename
  let lastSaved : List CompoundEntry :=
    [⟨jstr "ApplicationVendor", jstr "KString", jstr "wow.export "⟩,
     ⟨jstr "ApplicationName", jstr "KString", jstr "wow.export"⟩,
     ⟨jstr "ApplicationVersion", jstr "KString", m.version⟩,
     ⟨jstr "DateTime_GMT", jstr "DateTime", sceneTimeGMT c⟩]
  .mk (jstr "SceneInfo")
    [sprop (jstr "GlobalInfoSceneInfo"), sprop (jstr "UserData")]
    [.mk (jstr "Type") [sprop (jstr "UserData")] [],
     .mk (jstr "Version") [iprop 100] [],
     .mk (jstr "MetaData") []
       [.mk (jstr "Version") [iprop 100] [],
        .mk (jstr "Title") [sprop (jstr "")] [],
        .mk (jstr "Subject") [sprop (jstr "")] [],
        .mk (jstr "Author") [sprop (jstr "")] [],
        .mk (jstr "Keywords") [sprop (jstr "")] [],
        .mk (jstr "Revision") [sprop (jstr "")] [],
        .mk (jstr "Comment") [sprop (jstr "")] []],
     .mk (jstr "Properties70") []
       ([fbxPropURL (jstr "DocumentUrl") base,
         fbxPropURL (jstr "SrcDocumentUrl") base] ++
        createCompound (jstr "Original")
          (⟨jstr "FileName", jstr "KString", base⟩ :: lastSaved) ++
        createCompound (jstr "LastSaved") lastSaved)]

/-- `buildExtendedHeaderNode()`. -/
def buildExtendedHeaderNode (m : AppManifest) (cStamp cInfo : ClockState)
    (outBasename : List Nat) : FBXNodeRecord :=
  .mk (jstr "FBXHeaderExtension") []
    [.mk (jstr "FBXHeaderVersion") [iprop 1003] [],
     .mk (jstr "FBXVersion") [iprop 7400] [],
     .mk (jstr "EncryptionType") [iprop 0] [],
     buildCreationTimeStampNode cStamp,
     .mk (jstr "Creator") [sprop (appString m)] [],
     buildSceneInfoNode m cInfo outBasename]

/-- `buildFileIDNode()` with the 16 random bytes made explicit. -/
def buildFileIDNode (fileId : List Nat) : FBXNodeRecord :=
  .mk (jstr "FileId") [⟨.binary, .buf fileId⟩] []

/-- The `timeGMT` string of `buildCreationTimeNode` (source lines
325-334): UTC year (unpadded), UTC month + 1 (2-padded), local day
(2-padded), UTC hours (unpadded), then 2-padded minutes and seconds and
3-padded milliseconds. -/
def creationTimeGMT (c : ClockState) : List Nat :=
  natStr c.utcYear ++ jstr "/" ++ padStart 2 (natStr (c.utcMonth + 1)) ++ jstr "/" ++
  padStart 2 (natStr c.day) ++ jstr " " ++ natStr c.utcHours ++ jstr ":" ++
  padStart 2 (natStr c.utcMinutes) ++ jstr ":" ++ padStart 2 (natStr c.utcSeconds) ++
  jstr ":" ++ padStart 3 (natStr c.utcMilliseconds)

/-- `buildCreationTimeNode()`. -/
def buildCreationTimeNode (c : ClockState) : FBXNodeRecord :=
  .mk (jstr "CreationTime") [sprop (creationTimeGMT c)] []

/-- `buildCreatorNode()`. -/
def buildCreatorNode (m : AppManifest) : FBXNodeRecord :=
  .mk (jstr "Creator") [sprop (appString m)] []

/-- `buildGlobalSettingsNode()`. -/
def buildGlobalSettingsNode : FBXNodeRecord :=
  .mk (jstr "GlobalSettings") []
    [.mk (jstr "Version") [iprop 1000] [],
     .mk (jstr "Properties70") []
       [fbxPropInteger (jstr "UpAxis") 1,
        fbxPropInteger (jstr "UpAxisSign") 1,
        fbxPropInteger (jstr "FrontAxis") 2,
        fbxPropInteger (jstr "FrontAxisSign") 1,
        fbxPropInteger (jstr "CoordAxis") 0,
        fbxPropInteger (jstr "CoordAxisSign") 1,
        fbxPropInteger (jstr "OriginalUpAxis") (-1),
        fbxPropInteger (jstr "OriginalUpAxisSign") 1,
        fbxPropDouble (jstr "UnitScaleFactor") dbl1,
        fbxPropDouble (jstr "OriginalUnitScaleFactor") dbl1,
        fbxPropColorRGB (jstr "AmbientColor") dbl0 dbl0 dbl0,
        fbxPropKString (jstr "DefaultCamera") (jstr "Producer Perspective"),
        fbxPropEnum (jstr "TimeMode") 11,
        fbxPropKTime (jstr "TimeSpanStart") 0,
        fbxPropKTime (jstr "TimeSpanStop") 46186158000,
        fbxPropDouble (jstr "CustomFrameFrame") dbl24]]

/-- `buildDocumentsNode()`. -/
def buildDocumentsNode : FBXNodeRecord :=
  .mk (jstr "Documents") [] [.mk (jstr "Count") [iprop 0] []]

/-- `buildDefinitionsNode()`. -/
def buildDefinitionsNode : FBXNodeRecord :=
  .mk (jstr "Definitions") []
    [.mk (jstr "Version") [iprop 100] [],
     .mk (jstr "Count") [iprop 3] [],
     .mk (jstr "ObjectType") [sprop (jstr "GlobalSettings")]
       [.mk (jstr "Count") [iprop 1] []],
     .mk (jstr "ObjectType") [sprop (jstr "Geometry")]
       [.mk (jstr "Count") [iprop 1] [],
        .mk (jstr "PropertyTemplate") [sprop (jstr "FbxMesh")]
          [.mk (jstr "Properties70") []
            [fbxPropColorRGB (jstr "Color") dbl08 dbl08 dbl08,
             fbxPropVector3D (jstr "BBoxMin") dbl0 dbl0 dbl0,
             fbxPropVector3D (jstr "BBoxMax") dbl0 dbl0 dbl0,
             fbxPropBoolean (jstr "Primary Visibility") true,
             fbxPropBoolean (jstr "Casts Shadows") true,
             fbxPropBoolean (jstr "Receive Shadows") true]]],
     .mk (jstr "ObjectType") [sprop (jstr "Model")]
       [.mk (jstr "Count") [iprop 1] [],
        .mk (jstr "PropertyTemplate") [sprop (jstr "FbxNode")]
          [.mk (jstr "Properties70") []
            [fbxPropEnum (jstr "QuaternionInterpolate") 0,
             fbxPropVector3D (jstr "RotationOffset") dbl0 dbl0 dbl0,
             fbxPropVector3D (jstr "RotationPivot") dbl0 dbl0 dbl0,
             fbxPropVector3D (jstr "ScalingOffset") dbl0 dbl0 dbl0,
             fbxPropVector3D (jstr "ScalingPivot") dbl0 dbl0 dbl0,
             fbxPropBoolean (jstr "TranslationActive") false,
             fbxPropVector3D (jstr "TranslationMin") dbl0 dbl0 dbl0,
             fbxPropVector3D (jstr "TranslationMax") dbl0 dbl0 dbl0,
             fbxPropBoolean (jstr "TranslationMinX") false,
             fbxPropBoolean (jstr "TranslationMinY") false,
             fbxPropBoolean (jstr "TranslationMinZ") false,
             fbxPropBoolean (jstr "TranslationMaxX") false,
             fbxPropBoolean (jstr "TranslationMaxY") false,
             fbxPropBoolean (jstr "TranslationMaxZ") false,
             fbxPropBoolean (jstr "RotationOrder") false,
             fbxPropBoolean (jstr "RotationSpaceForLimitOnly") false,
             fbxPropBoolean (jstr "RotationStiffnessX") false,
             fbxPropBoolean (jstr "RotationStiffnessY") false,
             fbxPropBoolean (jstr "RotationStiffnessZ") false,
             fbxPropBoolean (jstr "AxisLen") false,
             fbxPropVector3D (jstr "PreRotation") dbl0 dbl0 dbl0,
             fbxPropVector3D (jstr "PostRotation") dbl0 dbl0 dbl0,
             fbxPropBoolean (jstr "RotationActive") false,
             fbxPropVector3D (jstr "RotationMin") dbl0 dbl0 dbl0,
             fbxPropVector3D (jstr "RotationMax") dbl0 dbl0 dbl0,
             fbxPropBoolean (jstr "RotationMinX") false,
             fbxPropBoolean (jstr "RotationMinY") false,
             fbxPropBoolean (jstr "RotationMinZ") false,
             fbxPropBoolean (jstr "RotationMaxX") false,
             fbxPropBoolean (jstr "RotationMaxY") false,
             fbxPropBoolean (jstr "RotationMaxZ") false,
             fbxPropEnum (jstr "InheritType") 0,
             fbxPropBoolean (jstr "ScalingActive") false,
             fbxPropVector3D (jstr "ScalingMin") dbl0 dbl0 dbl0,
             fbxPropVector3D (jstr "ScalingMax") dbl1 dbl1 dbl1,
             fbxPropBoolean (jstr "ScalingMinX") false,
             fbxPropBoolean (jstr "ScalingMinY") false,
             fbxPropBoolean (jstr "ScalingMinZ") false,
             fbxPropBoolean (jstr "ScalingMaxX") false,
             fbxPropBoolean (jstr "ScalingMaxY") false,
             fbxPropBoolean (jstr "ScalingMaxZ") false,
             fbxPropVector3D (jstr "GeometricTranslation") dbl0 dbl0 dbl0,
             fbxPropVector3D (jstr "GeometricRotation") dbl0 dbl0 dbl0,
             fbxPropVector3D (jstr "GeometricScaling") dbl1 dbl1 dbl1,
             fbxPropDouble (jstr "MinDampRangeX") dbl0,
             fbxPropDouble (jstr "MinDampRangeY") dbl0,
             fbxPropDouble (jstr "MinDampRangeZ") dbl0,
             fbxPropDouble (jstr "MaxDampRangeX") dbl0,
             fbxPropDouble (jstr "MaxDampRangeY") dbl0,
             fbxPropDouble (jstr "MaxDampRangeZ") dbl0,
             fbxPropDouble (jstr "MinDampStrengthX") dbl0,
             fbxPropDouble (jstr "MinDampStrengthY") dbl0,
             fbxPropDouble (jstr "MinDampStrengthZ") dbl0,
             fbxPropDouble (jstr "MaxDampStrengthX") dbl0,
             fbxPropDouble (jstr "MaxDampStrengthY") dbl0,
             fbxPropDouble (jstr "MaxDampStrengthZ") dbl0,
             fbxPropDouble (jstr "PreferedAngleX") dbl0,
             fbxPropDouble (jstr "PreferedAngleY") dbl0,
             fbxPropDouble (jstr "PreferedAngleZ") dbl0,
             fbxPropObject (jstr "LookAtProperty"),
             fbxPropObject (jstr "UpVectorProperty"),
             fbxPropBoolean (jstr "Show") true,
             fbxPropBoolean (jstr "NegativePercentShapeSupport") true,
             fbxPropInteger (jstr "DefaultAttributeIndex") (-1),
             fbxPropBoolean (jstr "Freeze") false,
             fbxPropBoolean (jstr "LODBox") false,
             fbxPropLCLVector (jstr "Lcl Translation") dbl0 dbl0 dbl0,
             fbxPropLCLVector (jstr "Lcl Rotation") dbl0 dbl0 dbl0,
             fbxPropLCLVector (jstr "Lcl Scaling") dbl0 dbl0 dbl0,
             .mk (jstr "P")
               [sprop (jstr "Visibility"), sprop (jstr "Visibility"),
                sprop (jstr ""), sprop (jstr "A"), dprop dbl1] [],
             .mk (jstr "P")
               [sprop (jstr "Visibility Inheritance"),
                sprop (jstr "Visibility Inheritance"),
                sprop (jstr ""), sprop (jstr ""), iprop 1] []]]]]

/-- `buildTakesNode()`. -/
def buildTakesNode : FBXNodeRecord :=
  .mk (jstr "Takes") [] [.mk (jstr "Current") [sprop (jstr "")] []]

/-- `buildConnectionsNode()` (no connections are emitted). -/
def buildConnectionsNode : FBXNodeRecord :=
  .mk (jstr "Connections") [] []

/-- `buildObjectsNode()` (no object instances are emitted). -/
def buildObjectsNode : FBXNodeRecord :=
  .mk (jstr "Objects") [] []

/-- `buildNodeTree()`: the eleven root records in insertion order.  Each
builder that reads the clock gets its own reading, mirroring the separate
`new Date()` calls in the source; `fileId` abstracts the 16
`Math.random()` bytes. -/
def buildNodeTree (m : AppManifest) (cStamp cInfo cCT : ClockState)
    (fileId outBasename : List Nat) : List FBXNodeRecord :=
  [buildExtendedHeaderNode m cStamp cInfo outBasename,
   buildFileIDNode fileId,
   buildCreationTimeNode cCT,
   buildCreatorNode m,
   buildGlobalSettingsNode,
   buildDocumentsNode,
   .mk (jstr "References") [] [],
   buildDefinitionsNode,
   buildObjectsNode,
   buildConnectionsNode,
   buildTakesNode]

/-- The full export pipeline for one run: build, size, frame and write. -/
def fbxOutput (m : AppManifest) (cStamp cInfo cCT : ClockState)
    (fileId outBasename : List Nat) : Option (List Nat) :=
  fbxWrite (buildNodeTree m cStamp cInfo cCT fileId outBasename)

mutual

/-- Depth of a sized node (1 plus the depth of its child list). -/
def sdepth : SizedNode → Nat
  | .mk _ _ cs _ _ => 1 + sdepthList cs

/-- Depth of a sized sibling list. -/
def sdepthList : List SizedNode → Nat
  | [] => 0
  | c :: cs => max (sdepth c) (sdepthList cs)

end

/-- One step of the chunked writer: emit the header-plus-properties bytes
of a node as one chunk, the chunks of its children (via `rec`), and the
13-byte trailer as its own chunk, threading the absolute offset exactly
as `writeNodeAt` does. -/
def chunkStepF (rec : Nat → List SizedNode → List (List Nat) × Nat)
    (acc : List (List Nat) × Nat) (node : SizedNode) : List (List Nat) × Nat :=
  match node with
  | .mk name ps cs size psize =>
    let hdr := nodeHeader acc.2 name ps size psize
    let pb := writeProps ps
    let cpair := rec (acc.2 + hdr.length + pb.length) cs
    (acc.1 ++ ((hdr ++ pb) :: cpair.1) ++
       (if cs.length > 0 then [List.replicate 13 0] else []),
     cpair.2 + (if cs.length > 0 then 13 else 0))

/-- The writer output presented as a list of per-node byte chunks (the
flattening of the chunks is proved equal to `writeChildrenAt` below;
`fuel` bounds the recursion depth and is inert whenever it exceeds the
tree depth). -/
def writeChunksL : Nat → Nat → List SizedNode → List (List Nat) × Nat
  | 0, off, _ => ([], off)
  | fuel + 1, off0, ss => ss.foldl (chunkStepF (writeChunksL fuel)) ([], off0)

/-- The chunked form of `fbxWrite`: the preamble chunk followed by the
node chunks. -/
def fbxChunks (fuel : Nat) (roots : List FBXNodeRecord) : Option (List (List Nat)) :=
  match sizeChildren roots with
  | some ss => some (preamble :: (writeChunksL fuel 27 ss).1)
  | none => none

/-- Whether `fuel` covers the depth of the sized tree of `roots`. -/
def chunksFit (fuel : Nat) (roots : List FBXNodeRecord) : Bool :=
  match sizeChildren roots with
  | some ss => sdepthList ss ≤ fuel
  | none => true

/-- A fixed application configuration shared by all concrete runs. -/
def demoManifest : AppManifest := ⟨jstr "0.1.53", jstr "win-x64"⟩

/-- The output basename shared by all concrete runs. -/
def demoBase : List Nat := jstr "model.fbx"

/-- Clock reading with UTC hour 9 (one digit when formatted unpadded). -/
def clkHour9 : ClockState := ⟨2026, 9, 11, 9, 8, 7, 123, 2026, 9, 9, 8, 7, 123⟩

/-- The same clock reading except UTC hour 19 (two digits when
formatted), so the three formatted timestamp strings are one byte
longer. -/
def clkHour19 : ClockState := ⟨2026, 9, 11, 9, 8, 7, 123, 2026, 9, 19, 8, 7, 123⟩

/-- Clock reading for run A of the equal-length comparison. -/
def clkRunA : ClockState := ⟨2026, 9, 11, 9, 8, 7, 123, 2026, 9, 9, 8, 7, 123⟩

/-- Clock reading for run B: every field differs from run A, but every
formatted component has the same digit count. -/
def clkRunB : ClockState := ⟨2027, 8, 12, 8, 9, 6, 456, 2027, 8, 8, 9, 6, 457⟩

/-- File-id bytes of run A. -/
def fidRunA : List Nat := [0, 1, 2, 3, 4, 5, 6, 7, 8, 9, 10, 11, 12, 13, 14, 15]

/-- File-id bytes of run B (every byte differs from run A). -/
def fidRunB : List Nat := (List.range 16).map (fun i => 100 + i)

/-- Root list of the run with UTC hour 9. -/
def rootsHour9 : List FBXNodeRecord :=
  buildNodeTree demoManifest clkHour9 clkHour9 clkHour9 fidRunA demoBase

/-- Root list of the run with UTC hour 19. -/
def rootsHour19 : List FBXNodeRecord :=
  buildNodeTree demoManifest clkHour19 clkHour19 clkHour19 fidRunA demoBase

/-- Root list of run A. -/
def rootsRunA : List FBXNodeRecord :=
  buildNodeTree demoManifest clkRunA clkRunA clkRunA fidRunA demoBase

/-- Root list of run B. -/
def rootsRunB : List FBXNodeRecord :=
  buildNodeTree demoManifest clkRunB clkRunB clkRunB fidRunB demoBase

/-- Chunked output of run A. -/
def chunksRunA : List (List Nat) := (fbxChunks 20 rootsRunA).getD []

/-- Chunked output of run B. -/
def chunksRunB : List (List Nat) := (fbxChunks 20 rootsRunB).getD []

/-- The property pairs allowed to differ between two export runs that
share input data and configuration: the seven CreationTimeStamp clock
Int32 values, the DateTime_GMT timestamp string (it appears in both the
Original and LastSaved compounds), the 16 random file-id bytes, and the
CreationTime timestamp string.  These are exactly the file-id and
current-timestamp fields of the document. -/
def volatilePairs (cS cI cT : ClockState) (f : List Nat)
    (cS2 cI2 cT2 : ClockState) (f2 : List Nat) : List (Property × Property) :=
  [(iprop cS.year, iprop cS2.year),
   (iprop (cS.month + 1), iprop (cS2.month + 1)),
   (iprop cS.day, iprop cS2.day),
   (iprop cS.hours, iprop cS2.hours),
   (iprop cS.minutes, iprop cS2.minutes),
   (iprop cS.seconds, iprop cS2.seconds),
   (iprop cS.milliseconds, iprop cS2.milliseconds),
   (sprop (sceneTimeGMT cI), sprop (sceneTimeGMT cI2)),
   (⟨.binary, .buf f⟩, ⟨.binary, .buf f2⟩),
   (sprop (creationTimeGMT cT), sprop (creationTimeGMT cT2))]

/-- Two corresponding properties of two runs: either literally the same
property, or one of the designated volatile pairs; in both cases the
descriptor and the encoded byte size agree. -/
def propRelV (V : List (Property × Property)) (p q : Property) : Prop :=
  (p = q ∨ (p, q) ∈ V) ∧ p.type = q.type ∧ propEncodedSize p = propEncodedSize q

/-- Correspondence of the two runs' input trees: equal names, properties
pairwise `propRelV`, children pairwise corresponding. -/
inductive TreeRelV (V : List (Property × Property)) : FBXNodeRecord → FBXNodeRecord → Prop where
  | mk : ∀ (name : List Nat) (ps1 ps2 : List Property) (cs1 cs2 : List FBXNodeRecord),
      List.Forall₂ (propRelV V) ps1 ps2 →
      List.Forall₂ (TreeRelV V) cs1 cs2 →
      TreeRelV V (.mk name ps1 cs1) (.mk name ps2 cs2)

/-- Correspondence of sized trees: equal names and identical size
annotations, properties pairwise `propRelV`, children pairwise
corresponding. -/
inductive SizedRelV (V : List (Property × Property)) : SizedNode → SizedNode → Prop where
  | mk : ∀ (name : List Nat) (ps1 ps2 : List Property) (cs1 cs2 : List SizedNode)
      (sz psz : Nat),
      List.Forall₂ (propRelV V) ps1 ps2 →
      List.Forall₂ (SizedRelV V) cs1 cs2 →
      SizedRelV V (.mk name ps1 cs1 sz psz) (.mk name ps2 cs2 sz psz)

/-- Corresponding properties as the writer sees them: the same property
or a designated volatile pair, emitting the same number of bytes. -/
def propMatchV (V : List (Property × Property)) (p q : Property) : Prop :=
  (p = q ∨ (p, q) ∈ V) ∧ (writeProp p).length = (writeProp q).length

/-- Corresponding output chunks of two runs: equal byte length, and
either identical, or of the form shared-header-plus-property-bytes with
the properties matching pairwise — so any differing bytes lie within the
payloads of designated volatile properties. -/
def chunkMatchV (V : List (Property × Property)) (c1 c2 : List Nat) : Prop :=
  c1.length = c2.length ∧
  (c1 = c2 ∨ ∃ H qs1 qs2, List.Forall₂ (propMatchV V) qs1 qs2 ∧
    c1 = H ++ writeProps qs1 ∧ c2 = H ++ writeProps qs2)

/-- JavaScript `Set.prototype.add` over element identities: appends the
element unless the very same element is already present (insertion order
is preserved; a re-added element keeps its original position). -/
def setAdd (s : List Nat) (x : Nat) : List Nat :=
  if x ∈ s then s else s ++ [x]

/-- `addChild(...children)`: add each child, by identity, to the
children set. -/
def addChildIds (s : List Nat) (xs : List Nat) : List Nat :=
  xs.foldl setAdd s

/-- A property object in the identity-aware model: the allocation
identity together with the type/value payload. -/
structure PropObj where
  id : Nat
  prop : Property
deriving DecidableEq

/-- `Set.prototype.add` on property objects: identity (and payload)
equality keyed. -/
def propSetAdd (s : List PropObj) (x : PropObj) : List PropObj :=
  if x ∈ s then s else s ++ [x]

/-- The property collection of one node under construction, together
with the allocator counter for fresh object identities. -/
structure PropState where
  props : List PropObj
  nextId : Nat

/-- `addProperty(type, ...values)`: for each value, allocate a fresh
type/value object and add it to the property set. -/
def addPropertyM (st : PropState) (t : PropertyType) (vs : List PValue) : PropState :=
  vs.foldl (fun a v => ⟨propSetAdd a.props ⟨a.nextId, ⟨t, v⟩⟩, a.nextId + 1⟩) st

/-- Allocator soundness: every allocated property object has an identity
below the counter. -/
def FreshIds (st : PropState) : Prop :=
  ∀ p ∈ st.props, p.id < st.nextId

/-- A leaf node whose one-character name `é` (U+00E9) occupies one UTF-16
code unit but two UTF-8 bytes. -/
def accentNode : FBXNodeRecord := .mk [233] [] []

/-- The annotation `calculateNodeTreeSize` produces for `accentNode`:
header cost `4 + 4 + 4 + 1 + name.length = 14`. -/
def accentSized : SizedNode := .mk [233] [] [] 14 0

/-- The single leaf node named `X` with one Int32 property of value 42. -/
def xLeaf : FBXNodeRecord := .mk (jstr "X") [⟨.int32, .num 42⟩] []

/-- Its sized form: `totalSize = 19`, `propertySize = 5`. -/
def xLeafSized : SizedNode := .mk (jstr "X") [⟨.int32, .num 42⟩] [] 19 5

/-- A parent node `A` with a single leaf child `B`. -/
def abParent : FBXNodeRecord := .mk (jstr "A") [] [.mk (jstr "B") [] []]

/-- Its sized form: the child is 14 bytes, the parent 14 header + 14
child + 13 trailer = 41. -/
def abParentSized : SizedNode := .mk (jstr "A") [] [.mk (jstr "B") [] [] 14 0] 41 0

/-- A property carrying an array-typed descriptor. -/
def arrProp : Property := ⟨.arrInt32, .arr [1, 2, 3]⟩

/-- A node holding an array-typed property. -/
def arrNode : FBXNodeRecord := .mk (jstr "V") [arrProp] []

theorem leBytes_length (n v : Nat) : (leBytes n v).length = n := by
  induction n generalizing v with
  | zero => rfl
  | succ n ih => simp [leBytes, ih]

theorem nodeHeader_length (off : Nat) (name : List Nat) (ps : List Property)
    (size psize : Nat) :
    (nodeHeader off name ps size psize).length = 13 + byteLength name := by
  simp [nodeHeader, leBytes_length, byteLength]
  omega

theorem writeProp_length (p : Property) (n : Nat) (h : propEncodedSize p = some n) :
    (writeProp p).length = n := by
  obtain ⟨t, v⟩ := p
  cases t <;>
    simp_all [propEncodedSize, writeProp, ptIsArray, ptSize, byteLength, leBytes_length] <;>
    omega

theorem writeProps_length (ps : List Property) (n : Nat) (h : propListSize ps = some n) :
    (writeProps ps).length = n := by
  induction ps generalizing n with
  | nil => simp [propListSize] at h; simp [writeProps, h]
  | cons p ps ih =>
    rw [propListSize] at h
    cases hp : propEncodedSize p with
    | none => rw [hp] at h; exact absurd h (by simp)
    | some a =>
      cases hq : propListSize ps with
      | none => rw [hp, hq] at h; exact absurd h (by simp)
      | some b =>
        rw [hp, hq] at h
        obtain rfl : a + b = n := by simpa using h
        simp [writeProps, writeProp_length p a hp, ih b hq]

theorem sizeChildren_length (ts : List FBXNodeRecord) (ss : List SizedNode)
    (h : sizeChildren ts = some ss) : ss.length = ts.length := by
  induction ts generalizing ss with
  | nil => simp [sizeChildren] at h; simp [← h]
  | cons t ts ih =>
    rw [sizeChildren] at h
    cases hs : sizeNode t with
    | none => rw [hs] at h; exact absurd h (by simp)
    | some s =>
      cases hl : sizeChildren ts with
      | none => rw [hs, hl] at h; exact absurd h (by simp)
      | some ss2 =>
        rw [hs, hl] at h
        obtain rfl : s :: ss2 = ss := by simpa using h
        simp [ih ss2 hl]

theorem childSizeSum_cons (c : SizedNode) (cs : List SizedNode) :
    childSizeSum (c :: cs) = c.size + childSizeSum cs := by
  simp [childSizeSum]

mutual

theorem sizeNode_ok (t : FBXNodeRecord) (s : SizedNode) (h : sizeNode t = some s) :
    sizedOk s = true := by
  match t with
  | .mk name ps cs =>
    rw [sizeNode] at h
    cases hp : propListSize ps with
    | none => rw [hp] at h; exact absurd h (by simp)
    | some psize =>
      cases hc : sizeChildren cs with
      | none => rw [hp, hc] at h; exact absurd h (by simp)
      | some scs =>
        rw [hp, hc] at h
        simp only [Option.some.injEq] at h
        subst h
        have hlen : scs.length = cs.length := sizeChildren_length cs scs hc
        rw [sizedOk]
        simp [hp, hlen, sizeChildren_ok cs scs hc]

theorem sizeChildren_ok (ts : List FBXNodeRecord) (ss : List SizedNode)
    (h : sizeChildren ts = some ss) : sizedOkList ss = true := by
  match ts with
  | [] =>
    rw [sizeChildren] at h
    obtain rfl : ([] : List SizedNode) = ss := by simpa using h
    rw [sizedOkList]
  | t :: ts =>
    rw [sizeChildren] at h
    cases hs : sizeNode t with
    | none => rw [hs] at h; exact absurd h (by simp)
    | some s =>
      cases hl : sizeChildren ts with
      | none => rw [hs, hl] at h; exact absurd h (by simp)
      | some ss2 =>
        rw [hs, hl] at h
        simp only [Option.some.injEq] at h
        subst h
        rw [sizedOkList]
        simp [sizeNode_ok t s hs, sizeChildren_ok ts ss2 hl]

end

mutual

theorem writeNodeAt_length (off : Nat) (s : SizedNode)
    (h1 : sizedOk s = true) (h2 : namesAscii s = true) :
    (writeNodeAt off s).length = s.size := by
  match s with
  | .mk name ps cs size psize =>
    rw [sizedOk] at h1
    rw [namesAscii] at h2
    simp only [Bool.and_eq_true, beq_iff_eq] at h1 h2
    obtain ⟨⟨hp, hsize⟩, hlist⟩ := h1
    obtain ⟨hname, hnames⟩ := h2
    rw [writeNodeAt]
    simp only [List.length_append, nodeHeader_length,
      writeProps_length ps psize hp,
      writeChildrenAt_length _ cs hlist hnames,
      apply_ite List.length, List.length_replicate, List.length_nil,
      SizedNode.size]
    rw [hsize, hname]

theorem writeChildrenAt_length (off : Nat) (ss : List SizedNode)
    (h1 : sizedOkList ss = true) (h2 : namesAsciiList ss = true) :
    (writeChildrenAt off ss).length = childSizeSum ss := by
  match ss with
  | [] =>
    rw [writeChildrenAt]
    simp [childSizeSum]
  | c :: cs =>
    rw [sizedOkList] at h1
    rw [namesAsciiList] at h2
    simp only [Bool.and_eq_true] at h1 h2
    rw [writeChildrenAt]
    simp only [List.length_append, childSizeSum_cons,
      writeNodeAt_length off c h1.1 h2.1,
      writeChildrenAt_length _ cs h1.2 h2.2]

end

theorem propEncodedSize_none_of_array (p : Property) (h : ptIsArray p.type = true) :
    propEncodedSize p = none := by
  obtain ⟨t, v⟩ := p
  cases t <;> simp_all [ptIsArray, propEncodedSize]

theorem propListSize_none_of_array (ps : List Property)
    (h : ps.any (fun p => ptIsArray p.type) = true) : propListSize ps = none := by
  induction ps with
  | nil => simp at h
  | cons p ps ih =>
    simp only [List.any_cons, Bool.or_eq_true] at h
    rw [propListSize]
    rcases h with h | h
    · rw [propEncodedSize_none_of_array p h]
    · rw [ih h]
      cases propEncodedSize p <;> rfl

mutual

theorem sizeNode_none_of_array (t : FBXNodeRecord) (h : hasArrayProp t = true) :
    sizeNode t = none := by
  match t with
  | .mk name ps cs =>
    rw [hasArrayProp] at h
    simp only [Bool.or_eq_true] at h
    rw [sizeNode]
    rcases h with h | h
    · rw [propListSize_none_of_array ps h]
    · rw [sizeChildren_none_of_array cs h]
      cases propListSize ps <;> rfl

theorem sizeChildren_none_of_array (ts : List FBXNodeRecord)
    (h : hasArrayPropList ts = true) : sizeChildren ts = none := by
  match ts with
  | [] => rw [hasArrayPropList] at h; exact absurd h (by simp)
  | t :: ts =>
    rw [hasArrayPropList] at h
    simp only [Bool.or_eq_true] at h
    rw [sizeChildren]
    rcases h with h | h
    · rw [sizeNode_none_of_array t h]
    · rw [sizeChildren_none_of_array ts h]
      cases sizeNode t <;> rfl

end

theorem writeProp_array (p : Property) (h : ptIsArray p.type = true) :
    writeProp p = [ptCode p.type] := by
  obtain ⟨t, v⟩ := p
  cases t <;> simp_all [ptIsArray, writeProp]

theorem writeNodeAt_leaf (off : Nat) (s : SizedNode) (h : s.children = []) :
    (writeNodeAt off s).length =
      13 + byteLength s.name + (writeProps s.properties).length := by
  match s with
  | .mk name ps cs size psize =>
    simp only [SizedNode.children] at h
    subst h
    rw [writeNodeAt, writeChildrenAt]
    simp [nodeHeader_length, SizedNode.name, SizedNode.properties]

theorem writeNodeAt_trailer (off : Nat) (s : SizedNode) (h : s.children ≠ []) :
    (writeNodeAt off s).drop ((writeNodeAt off s).length - 13) = List.replicate 13 0 ∧
    13 ≤ (writeNodeAt off s).length := by
  match s with
  | .mk name ps cs size psize =>
    simp only [SizedNode.children] at h
    have hlen : cs.length > 0 := List.length_pos.mpr h
    have hform : writeNodeAt off (.mk name ps cs size psize) =
        (nodeHeader off name ps size psize ++ writeProps ps ++
          writeChildrenAt (off + (nodeHeader off name ps size psize).length +
            (writeProps ps).length) cs) ++
          List.replicate 13 0 := by
      rw [writeNodeAt]
      simp [if_pos hlen, List.append_assoc]
    rw [hform]
    constructor
    · rw [List.length_append, List.length_replicate, Nat.add_sub_cancel,
        List.drop_left]
    · rw [List.length_append, List.length_replicate]
      omega

theorem sdepth_pos (c : SizedNode) : 1 ≤ sdepth c := by
  match c with
  | .mk _ _ cs _ _ => rw [sdepth]; omega

theorem foldl_chunkStep (W : Nat → List SizedNode → List (List Nat) × Nat) (d : Nat)
    (hW : ∀ off cs, sdepthList cs ≤ d →
      (W off cs).1.flatten = writeChildrenAt off cs ∧
      (W off cs).2 = off + (writeChildrenAt off cs).length) :
    ∀ (ss : List SizedNode) (pre : List (List Nat)) (off : Nat),
      sdepthList ss ≤ d + 1 →
      (ss.foldl (chunkStepF W) (pre, off)).1.flatten = pre.flatten ++ writeChildrenAt off ss ∧
      (ss.foldl (chunkStepF W) (pre, off)).2 = off + (writeChildrenAt off ss).length := by
  intro ss
  induction ss with
  | nil =>
    intro pre off h
    rw [writeChildrenAt]
    simp
  | cons c cs ih =>
    intro pre off h
    rw [sdepthList, Nat.max_le] at h
    match c with
    | .mk name ps cs2 size psize =>
      have hd : sdepthList cs2 ≤ d := by
        have h1 := h.1
        rw [sdepth] at h1
        omega
      obtain ⟨hj, ho⟩ := hW (off + (nodeHeader off name ps size psize).length +
        (writeProps ps).length) cs2 hd
      have hnode : writeNodeAt off (.mk name ps cs2 size psize) =
          nodeHeader off name ps size psize ++ writeProps ps ++
          writeChildrenAt (off + (nodeHeader off name ps size psize).length +
            (writeProps ps).length) cs2 ++
          (if cs2.length > 0 then List.replicate 13 0 else []) := by
        rw [writeNodeAt]
      have hstep : chunkStepF W (pre, off) (.mk name ps cs2 size psize) =
          (pre ++ ((nodeHeader off name ps size psize ++ writeProps ps) ::
            (W (off + (nodeHeader off name ps size psize).length +
              (writeProps ps).length) cs2).1) ++
            (if cs2.length > 0 then [List.replicate 13 0] else []),
           (W (off + (nodeHeader off name ps size psize).length +
              (writeProps ps).length) cs2).2 +
            (if cs2.length > 0 then 13 else 0)) := by
        rw [chunkStepF]
      have hnodelen : (writeNodeAt off (.mk name ps cs2 size psize)).length =
          (nodeHeader off name ps size psize).length + (writeProps ps).length +
          (writeChildrenAt (off + (nodeHeader off name ps size psize).length +
            (writeProps ps).length) cs2).length +
          (if cs2.length > 0 then 13 else 0) := by
        rw [hnode]
        simp only [List.length_append, apply_ite List.length, List.length_replicate,
          List.length_nil]
      have hoff2 : (W (off + (nodeHeader off name ps size psize).length +
            (writeProps ps).length) cs2).2 + (if cs2.length > 0 then 13 else 0) =
          off + (writeNodeAt off (.mk name ps cs2 size psize)).length := by
        rw [ho, hnodelen]
        omega
      have hprejoin : (pre ++ ((nodeHeader off name ps size psize ++ writeProps ps) ::
            (W (off + (nodeHeader off name ps size psize).length +
              (writeProps ps).length) cs2).1) ++
            (if cs2.length > 0 then [List.replicate 13 0] else [])).flatten =
          pre.flatten ++ writeNodeAt off (.mk name ps cs2 size psize) := by
        rw [hnode]
        simp only [List.flatten_append, List.flatten_cons, hj]
        split <;> simp [List.append_assoc]
      have hchild : writeChildrenAt off (.mk name ps cs2 size psize :: cs) =
          writeNodeAt off (.mk name ps cs2 size psize) ++
          writeChildrenAt (off + (writeNodeAt off (.mk name ps cs2 size psize)).length) cs := by
        rw [writeChildrenAt]
      rw [List.foldl_cons, hstep]
      obtain ⟨ihj, iho⟩ := ih (pre ++ ((nodeHeader off name ps size psize ++ writeProps ps) ::
          (W (off + (nodeHeader off name ps size psize).length +
            (writeProps ps).length) cs2).1) ++
          (if cs2.length > 0 then [List.replicate 13 0] else []))
        ((W (off + (nodeHeader off name ps size psize).length +
            (writeProps ps).length) cs2).2 + (if cs2.length > 0 then 13 else 0)) h.2
      constructor
      · rw [ihj, hprejoin, hoff2, hchild, List.append_assoc]
      · rw [iho, hoff2, hchild, List.length_append]
        omega

theorem writeChunksL_flatten (fuel : Nat) :
    ∀ (off : Nat) (ss : List SizedNode), sdepthList ss ≤ fuel →
      (writeChunksL fuel off ss).1.flatten = writeChildrenAt off ss ∧
      (writeChunksL fuel off ss).2 = off + (writeChildrenAt off ss).length := by
  induction fuel with
  | zero =>
    intro off ss h
    have hnil : ss = [] := by
      cases ss with
      | nil => rfl
      | cons c cs =>
        rw [sdepthList, Nat.max_le] at h
        have := sdepth_pos c
        omega
    subst hnil
    rw [writeChunksL, writeChildrenAt]
    simp
  | succ fuel ih =>
    intro off ss h
    rw [writeChunksL]
    have := foldl_chunkStep (writeChunksL fuel) fuel (fun o cs hd => ih o cs hd) ss [] off h
    simpa using this

theorem fbxChunks_flatten (fuel : Nat) (roots : List FBXNodeRecord)
    (hfit : chunksFit fuel roots = true) :
    Option.map List.flatten (fbxChunks fuel roots) = fbxWrite roots := by
  cases hs : sizeChildren roots with
  | none => simp [fbxChunks, fbxWrite, hs]
  | some ss =>
    rw [chunksFit, hs] at hfit
    have hdep : sdepthList ss ≤ fuel := by simpa using hfit
    simp only [fbxChunks, fbxWrite, hs, Option.map]
    rw [List.flatten_cons, (writeChunksL_flatten fuel 27 ss hdep).1]

theorem output_eq_chunks_flatten (fuel : Nat) (roots : List FBXNodeRecord)
    (hfit : chunksFit fuel roots = true)
    (hsome : (fbxChunks fuel roots).isSome = true) :
    (fbxWrite roots).getD [] = ((fbxChunks fuel roots).getD []).flatten := by
  have h := fbxChunks_flatten fuel roots hfit
  cases ho : fbxChunks fuel roots with
  | none => rw [ho] at hsome; simp at hsome
  | some c =>
    rw [ho] at h
    simp only [Option.map] at h
    rw [← h]
    rfl

theorem propRelV_refl (V : List (Property × Property)) (p : Property) :
    propRelV V p p := ⟨Or.inl rfl, rfl, rfl⟩

theorem chunkMatchV_refl (V : List (Property × Property)) (c : List Nat) :
    chunkMatchV V c c := ⟨rfl, Or.inl rfl⟩

theorem forall2_chunkMatchV_refl (V : List (Property × Property))
    (ch : List (List Nat)) : List.Forall₂ (chunkMatchV V) ch ch :=
  List.forall₂_same.mpr (fun c _ => chunkMatchV_refl V c)

theorem forall2_append {α β : Type} {R : α → β → Prop} {l1 l1' : List α} {l2 l2' : List β}
    (h : List.Forall₂ R l1 l2) (h' : List.Forall₂ R l1' l2') :
    List.Forall₂ R (l1 ++ l1') (l2 ++ l2') := by
  induction h with
  | nil => simpa using h'
  | cons hab hrest ih => exact List.Forall₂.cons hab ih

mutual

theorem treeRelV_refl (V : List (Property × Property)) (t : FBXNodeRecord) :
    TreeRelV V t t := by
  match t with
  | .mk name ps cs =>
    exact TreeRelV.mk name ps ps cs cs
      (List.forall₂_same.mpr (fun p _ => propRelV_refl V p)) (treeRelListV_refl V cs)

theorem treeRelListV_refl (V : List (Property × Property)) (ts : List FBXNodeRecord) :
    List.Forall₂ (TreeRelV V) ts ts := by
  match ts with
  | [] => exact List.Forall₂.nil
  | t :: ts => exact List.Forall₂.cons (treeRelV_refl V t) (treeRelListV_refl V ts)

end

theorem propListSize_congr (V : List (Property × Property)) (ps qs : List Property)
    (h : List.Forall₂ (propRelV V) ps qs) : propListSize ps = propListSize qs := by
  induction h with
  | nil => rfl
  | cons hpq hrest ih => simp only [propListSize, hpq.2.2, ih]

theorem childSizeSum_congr (V : List (Property × Property)) (ss1 ss2 : List SizedNode)
    (h : List.Forall₂ (SizedRelV V) ss1 ss2) : childSizeSum ss1 = childSizeSum ss2 := by
  induction h with
  | nil => rfl
  | cons hab hrest ih =>
    rw [childSizeSum_cons, childSizeSum_cons, ih]
    cases hab with
    | mk name ps1 ps2 cs1 cs2 sz psz hps hcs => rfl

mutual

theorem sizeNode_congr (V : List (Property × Property)) (t1 t2 : FBXNodeRecord)
    (h : TreeRelV V t1 t2) (s1 : SizedNode) (hs : sizeNode t1 = some s1) :
    ∃ s2, sizeNode t2 = some s2 ∧ SizedRelV V s1 s2 := by
  match t1 with
  | .mk name ps cs =>
    cases h with
    | mk _ _ ps2 _ cs2 hps hcs =>
      rw [sizeNode] at hs
      cases hp : propListSize ps with
      | none => rw [hp] at hs; exact absurd hs (by simp)
      | some psize =>
        cases hc : sizeChildren cs with
        | none => rw [hp, hc] at hs; exact absurd hs (by simp)
        | some scs =>
          rw [hp, hc] at hs
          simp only [Option.some.injEq] at hs
          subst hs
          obtain ⟨ss2, hss2, hsrel⟩ := sizeChildren_congr V cs cs2 hcs scs hc
          have hp2 : propListSize ps2 = some psize := by
            rw [← propListSize_congr V ps ps2 hps, hp]
          refine ⟨.mk name ps2 ss2
            (4 + 4 + 4 + 1 + utf16Len name + psize + childSizeSum ss2 +
              (if cs2.length > 0 then 13 else 0)) psize, ?_, ?_⟩
          · rw [sizeNode, hp2, hss2]
          · have hsum : childSizeSum ss2 = childSizeSum scs :=
              (childSizeSum_congr V scs ss2 hsrel).symm
            have hlen2 : cs2.length = cs.length := (List.Forall₂.length_eq hcs).symm
            rw [hsum, hlen2]
            exact SizedRelV.mk name ps ps2 scs ss2 _ psize hps hsrel

theorem sizeChildren_congr (V : List (Property × Property)) (ts1 ts2 : List FBXNodeRecord)
    (h : List.Forall₂ (TreeRelV V) ts1 ts2) (ss1 : List SizedNode)
    (hs : sizeChildren ts1 = some ss1) :
    ∃ ss2, sizeChildren ts2 = some ss2 ∧ List.Forall₂ (SizedRelV V) ss1 ss2 := by
  match ts1 with
  | [] =>
    cases h
    rw [sizeChildren] at hs
    obtain rfl : ([] : List SizedNode) = ss1 := by simpa using hs
    exact ⟨[], by rw [sizeChildren], List.Forall₂.nil⟩
  | t :: ts =>
    cases h with
    | cons ht hts =>
      rw [sizeChildren] at hs
      cases h1 : sizeNode t with
      | none => rw [h1] at hs; exact absurd hs (by simp)
      | some s =>
        cases h2 : sizeChildren ts with
        | none => rw [h1, h2] at hs; exact absurd hs (by simp)
        | some ss =>
          rw [h1, h2] at hs
          simp only [Option.some.injEq] at hs
          subst hs
          obtain ⟨s2, hs2, hrel⟩ := sizeNode_congr V t _ ht s h1
          obtain ⟨ss2, hss2, hrels⟩ := sizeChildren_congr V ts _ hts ss h2
          exact ⟨s2 :: ss2, by rw [sizeChildren, hs2, hss2], List.Forall₂.cons hrel hrels⟩

end

mutual

theorem sdepth_congr (V : List (Property × Property)) (s1 s2 : SizedNode)
    (h : SizedRelV V s1 s2) : sdepth s1 = sdepth s2 := by
  match s1 with
  | .mk name ps cs sz psz =>
    cases h with
    | mk _ _ ps2 _ cs2 _ _ hps hcs =>
      rw [sdepth, sdepth, sdepthList_congr V cs cs2 hcs]

theorem sdepthList_congr (V : List (Property × Property)) (ss1 ss2 : List SizedNode)
    (h : List.Forall₂ (SizedRelV V) ss1 ss2) : sdepthList ss1 = sdepthList ss2 := by
  match ss1 with
  | [] =>
    cases h
    rfl
  | c :: cs =>
    cases h with
    | cons hc hcs =>
      rw [sdepthList, sdepthList, sdepth_congr V c _ hc, sdepthList_congr V cs _ hcs]

end

theorem propEncodedSize_none_iff (p : Property) :
    propEncodedSize p = none ↔ ptIsArray p.type = true := by
  obtain ⟨t, v⟩ := p
  cases t <;> simp [propEncodedSize, ptIsArray]

theorem writeProp_length_congr (V : List (Property × Property)) (p q : Property)
    (h : propRelV V p q) : (writeProp p).length = (writeProp q).length := by
  cases hsz : propEncodedSize p with
  | none =>
    have hq : propEncodedSize q = none := by rw [← h.2.2, hsz]
    rw [writeProp_array p ((propEncodedSize_none_iff p).mp hsz),
      writeProp_array q ((propEncodedSize_none_iff q).mp hq)]
    rfl
  | some n =>
    have hq : propEncodedSize q = some n := by rw [← h.2.2, hsz]
    rw [writeProp_length p n hsz, writeProp_length q n hq]

theorem propMatchV_of_relV (V : List (Property × Property)) (p q : Property)
    (h : propRelV V p q) : propMatchV V p q :=
  ⟨h.1, writeProp_length_congr V p q h⟩

theorem writeProps_length_congr (V : List (Property × Property)) (ps qs : List Property)
    (h : List.Forall₂ (propMatchV V) ps qs) :
    (writeProps ps).length = (writeProps qs).length := by
  induction h with
  | nil => rfl
  | cons hpq hrest ih =>
    rw [writeProps, writeProps, List.length_append, List.length_append, hpq.2, ih]

theorem chunkMatch_flatten_length (V : List (Property × Property))
    (ch1 ch2 : List (List Nat)) (h : List.Forall₂ (chunkMatchV V) ch1 ch2) :
    ch1.flatten.length = ch2.flatten.length := by
  induction h with
  | nil => rfl
  | cons hab hrest ih =>
    rw [List.flatten_cons, List.flatten_cons, List.length_append, List.length_append,
      hab.1, ih]

theorem foldl_chunkStep_congr (V : List (Property × Property))
    (W1 W2 : Nat → List SizedNode → List (List Nat) × Nat)
    (hW : ∀ off cs1 cs2, List.Forall₂ (SizedRelV V) cs1 cs2 →
      List.Forall₂ (chunkMatchV V) (W1 off cs1).1 (W2 off cs2).1 ∧
      (W1 off cs1).2 = (W2 off cs2).2) :
    ∀ (ss1 ss2 : List SizedNode), List.Forall₂ (SizedRelV V) ss1 ss2 →
      ∀ (pre1 pre2 : List (List Nat)) (off : Nat),
        List.Forall₂ (chunkMatchV V) pre1 pre2 →
        List.Forall₂ (chunkMatchV V) (ss1.foldl (chunkStepF W1) (pre1, off)).1
          (ss2.foldl (chunkStepF W2) (pre2, off)).1 ∧
        (ss1.foldl (chunkStepF W1) (pre1, off)).2 =
          (ss2.foldl (chunkStepF W2) (pre2, off)).2 := by
  intro ss1
  induction ss1 with
  | nil =>
    intro ss2 h pre1 pre2 off hpre
    cases h
    constructor
    · simpa using hpre
    · rfl
  | cons c1 cs1 ih =>
    intro ss2 h pre1 pre2 off hpre
    cases h with
    | cons hc hrest =>
      cases hc with
      | mk name ps1 ps2 csA csB sz psz hps hcs =>
        have hplen : ps1.length = ps2.length := List.Forall₂.length_eq hps
        have hhdr : nodeHeader off name ps2 sz psz = nodeHeader off name ps1 sz psz := by
          simp only [nodeHeader, hplen]
        have hpm : List.Forall₂ (propMatchV V) ps1 ps2 :=
          List.Forall₂.imp (fun a b hab => propMatchV_of_relV V a b hab) hps
        have hwlen : (writeProps ps2).length = (writeProps ps1).length :=
          (writeProps_length_congr V ps1 ps2 hpm).symm
        have hclen : csB.length = csA.length := (List.Forall₂.length_eq hcs).symm
        have hstep1 : chunkStepF W1 (pre1, off) (.mk name ps1 csA sz psz) =
            (pre1 ++ ((nodeHeader off name ps1 sz psz ++ writeProps ps1) ::
              (W1 (off + (nodeHeader off name ps1 sz psz).length +
                (writeProps ps1).length) csA).1) ++
              (if csA.length > 0 then [List.replicate 13 0] else []),
             (W1 (off + (nodeHeader off name ps1 sz psz).length +
                (writeProps ps1).length) csA).2 +
              (if csA.length > 0 then 13 else 0)) := by
          rw [chunkStepF]
        have hstep2 : chunkStepF W2 (pre2, off) (.mk name ps2 csB sz psz) =
            (pre2 ++ ((nodeHeader off name ps1 sz psz ++ writeProps ps2) ::
              (W2 (off + (nodeHeader off name ps1 sz psz).length +
                (writeProps ps1).length) csB).1) ++
              (if csA.length > 0 then [List.replicate 13 0] else []),
             (W2 (off + (nodeHeader off name ps1 sz psz).length +
                (writeProps ps1).length) csB).2 +
              (if csA.length > 0 then 13 else 0)) := by
          rw [chunkStepF, hhdr, hwlen, hclen]
        obtain ⟨hWf, hWo⟩ := hW (off + (nodeHeader off name ps1 sz psz).length +
          (writeProps ps1).length) csA csB hcs
        have hnodechunk : chunkMatchV V
            (nodeHeader off name ps1 sz psz ++ writeProps ps1)
            (nodeHeader off name ps1 sz psz ++ writeProps ps2) := by
          constructor
          · rw [List.length_append, List.length_append, hwlen]
          · exact Or.inr ⟨nodeHeader off name ps1 sz psz, ps1, ps2, hpm, rfl, rfl⟩
        have hpre2 : List.Forall₂ (chunkMatchV V)
            (pre1 ++ ((nodeHeader off name ps1 sz psz ++ writeProps ps1) ::
              (W1 (off + (nodeHeader off name ps1 sz psz).length +
                (writeProps ps1).length) csA).1) ++
              (if csA.length > 0 then [List.replicate 13 0] else []))
            (pre2 ++ ((nodeHeader off name ps1 sz psz ++ writeProps ps2) ::
              (W2 (off + (nodeHeader off name ps1 sz psz).length +
                (writeProps ps1).length) csB).1) ++
              (if csA.length > 0 then [List.replicate 13 0] else [])) :=
          forall2_append (forall2_append hpre (List.Forall₂.cons hnodechunk hWf))
            (forall2_chunkMatchV_refl V _)
        rw [List.foldl_cons, List.foldl_cons, hstep1, hstep2, hWo]
        exact ih _ hrest _ _ _ hpre2

theorem writeChunksL_congr (V : List (Property × Property)) (fuel : Nat) :
    ∀ (off : Nat) (ss1 ss2 : List SizedNode), List.Forall₂ (SizedRelV V) ss1 ss2 →
      List.Forall₂ (chunkMatchV V) (writeChunksL fuel off ss1).1
        (writeChunksL fuel off ss2).1 ∧
      (writeChunksL fuel off ss1).2 = (writeChunksL fuel off ss2).2 := by
  induction fuel with
  | zero =>
    intro off ss1 ss2 h
    rw [writeChunksL, writeChunksL]
    exact ⟨List.Forall₂.nil, rfl⟩
  | succ fuel ih =>
    intro off ss1 ss2 h
    rw [writeChunksL, writeChunksL]
    exact foldl_chunkStep_congr V (writeChunksL fuel) (writeChunksL fuel)
      (fun o cs1 cs2 hr => ih o cs1 cs2 hr) ss1 ss2 h [] [] off List.Forall₂.nil

theorem iprop_rel (V : List (Property × Property)) (a b : Int)
    (hm : (iprop a, iprop b) ∈ V) : propRelV V (iprop a) (iprop b) :=
  ⟨Or.inr hm, rfl, rfl⟩

theorem sprop_rel (V : List (Property × Property)) (s1 s2 : List Nat)
    (hm : (sprop s1, sprop s2) ∈ V) (hlen : byteLength s1 = byteLength s2) :
    propRelV V (sprop s1) (sprop s2) :=
  ⟨Or.inr hm, rfl, by
    show some (1 + (4 + byteLength s1)) = some (1 + (4 + byteLength s2))
    rw [hlen]⟩

theorem buf_rel (V : List (Property × Property)) (f1 f2 : List Nat)
    (hm : ((⟨.binary, .buf f1⟩ : Property), (⟨.binary, .buf f2⟩ : Property)) ∈ V)
    (hlen : f1.length = f2.length) :
    propRelV V ⟨.binary, .buf f1⟩ ⟨.binary, .buf f2⟩ :=
  ⟨Or.inr hm, rfl, by
    show some (1 + (4 + f1.length)) = some (1 + (4 + f2.length))
    rw [hlen]⟩

theorem leafRel (V : List (Property × Property)) (name : List Nat) (p q : Property)
    (h : propRelV V p q) : TreeRelV V (.mk name [p] []) (.mk name [q] []) :=
  TreeRelV.mk name [p] [q] [] []
    (List.Forall₂.cons h List.Forall₂.nil) List.Forall₂.nil

theorem stamp_relV (V : List (Property × Property)) (cS cS2 : ClockState)
    (mY : (iprop cS.year, iprop cS2.year) ∈ V)
    (mM : (iprop (cS.month + 1), iprop (cS2.month + 1)) ∈ V)
    (mD : (iprop cS.day, iprop cS2.day) ∈ V)
    (mH : (iprop cS.hours, iprop cS2.hours) ∈ V)
    (mMi : (iprop cS.minutes, iprop cS2.minutes) ∈ V)
    (mS : (iprop cS.seconds, iprop cS2.seconds) ∈ V)
    (mMs : (iprop cS.milliseconds, iprop cS2.milliseconds) ∈ V) :
    TreeRelV V (buildCreationTimeStampNode cS) (buildCreationTimeStampNode cS2) := by
  simp only [buildCreationTimeStampNode]
  refine TreeRelV.mk _ _ _ _ _ List.Forall₂.nil ?_
  refine List.Forall₂.cons (treeRelV_refl V _) ?_
  refine List.Forall₂.cons (leafRel V _ _ _ (iprop_rel V _ _ mY)) ?_
  refine List.Forall₂.cons (leafRel V _ _ _ (iprop_rel V _ _ mM)) ?_
  refine List.Forall₂.cons (leafRel V _ _ _ (iprop_rel V _ _ mD)) ?_
  refine List.Forall₂.cons (leafRel V _ _ _ (iprop_rel V _ _ mH)) ?_
  refine List.Forall₂.cons (leafRel V _ _ _ (iprop_rel V _ _ mMi)) ?_
  refine List.Forall₂.cons (leafRel V _ _ _ (iprop_rel V _ _ mS)) ?_
  exact List.Forall₂.cons (leafRel V _ _ _ (iprop_rel V _ _ mMs)) List.Forall₂.nil

theorem sceneInfo_relV (V : List (Property × Property)) (m : AppManifest)
    (cI cI2 : ClockState) (base0 : List Nat)
    (mI : (sprop (sceneTimeGMT cI), sprop (sceneTimeGMT cI2)) ∈ V)
    (hI : byteLength (sceneTimeGMT cI) = byteLength (sceneTimeGMT cI2)) :
    TreeRelV V (buildSceneInfoNode m cI base0) (buildSceneInfoNode m cI2 base0) := by
  simp only [buildSceneInfoNode, createCompound, List.map, List.cons_append,
    List.nil_append]
  refine TreeRelV.mk _ _ _ _ _
    (List.forall₂_same.mpr (fun p _ => propRelV_refl V p)) ?_
  refine List.Forall₂.cons (treeRelV_refl V _) ?_
  refine List.Forall₂.cons (treeRelV_refl V _) ?_
  refine List.Forall₂.cons (treeRelV_refl V _) ?_
  refine List.Forall₂.cons ?_ List.Forall₂.nil
  refine TreeRelV.mk _ _ _ _ _ List.Forall₂.nil ?_
  refine List.Forall₂.cons (treeRelV_refl V _) ?_
  refine List.Forall₂.cons (treeRelV_refl V _) ?_
  refine List.Forall₂.cons (treeRelV_refl V _) ?_
  refine List.Forall₂.cons (treeRelV_refl V _) ?_
  refine List.Forall₂.cons (treeRelV_refl V _) ?_
  refine List.Forall₂.cons (treeRelV_refl V _) ?_
  refine List.Forall₂.cons (treeRelV_refl V _) ?_
  refine List.Forall₂.cons ?_ ?_
  · refine TreeRelV.mk _ _ _ _ _ ?_ List.Forall₂.nil
    refine List.Forall₂.cons (propRelV_refl V _) ?_
    refine List.Forall₂.cons (propRelV_refl V _) ?_
    refine List.Forall₂.cons (propRelV_refl V _) ?_
    refine List.Forall₂.cons (propRelV_refl V _) ?_
    exact List.Forall₂.cons (sprop_rel V _ _ mI hI) List.Forall₂.nil
  refine List.Forall₂.cons (treeRelV_refl V _) ?_
  refine List.Forall₂.cons (treeRelV_refl V _) ?_
  refine List.Forall₂.cons (treeRelV_refl V _) ?_
  refine List.Forall₂.cons (treeRelV_refl V _) ?_
  refine List.Forall₂.cons ?_ List.Forall₂.nil
  refine TreeRelV.mk _ _ _ _ _ ?_ List.Forall₂.nil
  refine List.Forall₂.cons (propRelV_refl V _) ?_
  refine List.Forall₂.cons (propRelV_refl V _) ?_
  refine List.Forall₂.cons (propRelV_refl V _) ?_
  refine List.Forall₂.cons (propRelV_refl V _) ?_
  exact List.Forall₂.cons (sprop_rel V _ _ mI hI) List.Forall₂.nil

theorem hdrExt_relV (V : List (Property × Property)) (m : AppManifest)
    (cS cS2 cI cI2 : ClockState) (base0 : List Nat)
    (mY : (iprop cS.year, iprop cS2.year) ∈ V)
    (mM : (iprop (cS.month + 1), iprop (cS2.month + 1)) ∈ V)
    (mD : (iprop cS.day, iprop cS2.day) ∈ V)
    (mH : (iprop cS.hours, iprop cS2.hours) ∈ V)
    (mMi : (iprop cS.minutes, iprop cS2.minutes) ∈ V)
    (mS : (iprop cS.seconds, iprop cS2.seconds) ∈ V)
    (mMs : (iprop cS.milliseconds, iprop cS2.milliseconds) ∈ V)
    (mI : (sprop (sceneTimeGMT cI), sprop (sceneTimeGMT cI2)) ∈ V)
    (hI : byteLength (sceneTimeGMT cI) = byteLength (sceneTimeGMT cI2)) :
    TreeRelV V (buildExtendedHeaderNode m cS cI base0)
      (buildExtendedHeaderNode m cS2 cI2 base0) := by
  simp only [buildExtendedHeaderNode]
  refine TreeRelV.mk _ _ _ _ _ List.Forall₂.nil ?_
  refine List.Forall₂.cons (treeRelV_refl V _) ?_
  refine List.Forall₂.cons (treeRelV_refl V _) ?_
  refine List.Forall₂.cons (treeRelV_refl V _) ?_
  refine List.Forall₂.cons (stamp_relV V cS cS2 mY mM mD mH mMi mS mMs) ?_
  refine List.Forall₂.cons (treeRelV_refl V _) ?_
  exact List.Forall₂.cons (sceneInfo_relV V m cI cI2 base0 mI hI) List.Forall₂.nil

theorem buildNodeTree_relV (V : List (Property × Property)) (m : AppManifest)
    (cS cI cT cS2 cI2 cT2 : ClockState) (f f2 base0 : List Nat)
    (mY : (iprop cS.year, iprop cS2.year) ∈ V)
    (mM : (iprop (cS.month + 1), iprop (cS2.month + 1)) ∈ V)
    (mD : (iprop cS.day, iprop cS2.day) ∈ V)
    (mH : (iprop cS.hours, iprop cS2.hours) ∈ V)
    (mMi : (iprop cS.minutes, iprop cS2.minutes) ∈ V)
    (mS : (iprop cS.seconds, iprop cS2.seconds) ∈ V)
    (mMs : (iprop cS.milliseconds, iprop cS2.milliseconds) ∈ V)
    (mI : (sprop (sceneTimeGMT cI), sprop (sceneTimeGMT cI2)) ∈ V)
    (mF : ((⟨.binary, .buf f⟩ : Property), (⟨.binary, .buf f2⟩ : Property)) ∈ V)
    (mT : (sprop (creationTimeGMT cT), sprop (creationTimeGMT cT2)) ∈ V)
    (hI : byteLength (sceneTimeGMT cI) = byteLength (sceneTimeGMT cI2))
    (hT : byteLength (creationTimeGMT cT) = byteLength (creationTimeGMT cT2))
    (hf : f.length = f2.length) :
    List.Forall₂ (TreeRelV V) (buildNodeTree m cS cI cT f base0)
      (buildNodeTree m cS2 cI2 cT2 f2 base0) := by
  simp only [buildNodeTree, buildFileIDNode, buildCreationTimeNode]
  refine List.Forall₂.cons
    (hdrExt_relV V m cS cS2 cI cI2 base0 mY mM mD mH mMi mS mMs mI hI) ?_
  refine List.Forall₂.cons (leafRel V _ _ _ (buf_rel V f f2 mF hf)) ?_
  refine List.Forall₂.cons (leafRel V _ _ _ (sprop_rel V _ _ mT hT)) ?_
  refine List.Forall₂.cons (treeRelV_refl V _) ?_
  refine List.Forall₂.cons (treeRelV_refl V _) ?_
  refine List.Forall₂.cons (treeRelV_refl V _) ?_
  refine List.Forall₂.cons (treeRelV_refl V _) ?_
  refine List.Forall₂.cons (treeRelV_refl V _) ?_
  refine List.Forall₂.cons (treeRelV_refl V _) ?_
  refine List.Forall₂.cons (treeRelV_refl V _) ?_
  exact List.Forall₂.cons (treeRelV_refl V _) List.Forall₂.nil

/-- C1 (amended): for every tree sized by `calculateNodeTreeSize` whose
node names have UTF-16 length equal to UTF-8 byte length (in particular,
all-ASCII names), `writeNode` emits exactly `node.size` bytes for the
node's entire subtree, and the 32-bit `endOffset` field it writes equals
the absolute position immediately after the subtree and trailer (the
offset before the header plus the emitted byte count), reduced modulo
2^32 as the field is 32 bits wide.  The statement quantifies over every
tree and offset, so it covers every node of a larger tree recursively at
the offset the writer reaches it. -/
theorem c1_writer_emits_totalSize (t : FBXNodeRecord) (s : SizedNode) (off : Nat)
    (hs : sizeNode t = some s) (hn : namesAscii s = true) :
    (writeNodeAt off s).length = s.size ∧
    (writeNodeAt off s).take 4 =
      leBytes 4 ((off + (writeNodeAt off s).length) % 2 ^ 32) := by
  have hok := sizeNode_ok t s hs
  have hlen := writeNodeAt_length off s hok hn
  refine ⟨hlen, ?_⟩
  rw [hlen]
  obtain ⟨name, ps, cs, size, psize⟩ := s
  simp only [SizedNode.size]
  rw [writeNodeAt, nodeHeader]
  simp only [List.append_assoc]
  exact List.take_left' (leBytes_length 4 _)

/-- Witness for C1 at the concrete `X`/Int32-42 leaf and offset 27. -/
theorem c1_witness :
    (writeNodeAt 27 xLeafSized).length = xLeafSized.size ∧
    (writeNodeAt 27 xLeafSized).take 4 =
      leBytes 4 ((27 + (writeNodeAt 27 xLeafSized).length) % 2 ^ 32) :=
  c1_writer_emits_totalSize xLeaf xLeafSized 27 rfl rfl

/-- C1 counterexample: for the sized leaf named `é` the size calculator
stores 14 (using the UTF-16 length of the name) but the writer emits 15
bytes (using the UTF-8 byte length), so as stated — over all constructed
and sized trees — the claim fails. -/
theorem c1_counterexample :
    sizeNode accentNode = some accentSized ∧
    (writeNodeAt 27 accentSized).length = 15 ∧
    accentSized.size = 14 ∧
    (writeNodeAt 27 accentSized).length ≠ accentSized.size :=
  ⟨rfl, rfl, rfl, by decide⟩

/-- C2: the claim says the size calculator's base header cost uses the
UTF-8 byte length of the name.  The code uses `node.name.length` (UTF-16
code units) instead: for the one-character name `é` the sizer computes
`4 + 4 + 4 + 1 + 1 = 14` while the writer — which does use
`Buffer.byteLength` — emits `4 + 4 + 4 + 1 + 2 = 15` header bytes, so
the two passes disagree on non-ASCII names. -/
theorem c2_header_cost_divergence :
    sizeNode accentNode = some accentSized ∧
    accentSized.size = 4 + 4 + 4 + 1 + utf16Len accentNode.name ∧
    utf16Len accentNode.name = 1 ∧
    byteLength accentNode.name = 2 ∧
    (writeNodeAt 0 accentSized).length = 4 + 4 + 4 + 1 + byteLength accentNode.name :=
  ⟨rfl, rfl, rfl, rfl, rfl⟩

/-- C3: a sized node counts and emits the 13-byte zero trailer exactly
when it has one or more children: a leaf's `totalSize` is header plus
properties only and its emitted bytes are exactly header plus properties,
while a node with children counts 13 extra bytes and its emitted bytes
end in 13 zero bytes — regardless of how many properties it has. -/
theorem c3_trailer_iff_children (t : FBXNodeRecord) (s : SizedNode) (off : Nat)
    (hs : sizeNode t = some s) :
    (s.children = [] →
      s.size = 13 + utf16Len s.name + s.propertySize ∧
      (writeNodeAt off s).length =
        13 + byteLength s.name + (writeProps s.properties).length) ∧
    (s.children ≠ [] →
      s.size = 13 + utf16Len s.name + s.propertySize + childSizeSum s.children + 13 ∧
      (writeNodeAt off s).drop ((writeNodeAt off s).length - 13) = List.replicate 13 0 ∧
      13 ≤ (writeNodeAt off s).length) := by
  have hok := sizeNode_ok t s hs
  obtain ⟨name, ps, cs, size, psize⟩ := s
  rw [sizedOk] at hok
  simp only [Bool.and_eq_true, beq_iff_eq] at hok
  obtain ⟨⟨hp, hsize⟩, _⟩ := hok
  constructor
  · intro hleaf
    simp only [SizedNode.children] at hleaf
    subst hleaf
    refine ⟨?_, writeNodeAt_leaf off _ rfl⟩
    simp only [SizedNode.size, SizedNode.name, SizedNode.propertySize]
    rw [hsize]
    simp [childSizeSum]
  · intro hne
    have hne2 : cs ≠ [] := by simpa [SizedNode.children] using hne
    have htr := writeNodeAt_trailer off (.mk name ps cs size psize)
      (by simpa [SizedNode.children] using hne)
    refine ⟨?_, htr.1, htr.2⟩
    simp only [SizedNode.size, SizedNode.name, SizedNode.propertySize, SizedNode.children]
    rw [hsize, if_pos (List.length_pos.mpr hne2)]

/-- Witness for C3 at a parent with one child. -/
theorem c3_witness :
    (abParentSized.children = [] →
      abParentSized.size = 13 + utf16Len abParentSized.name + abParentSized.propertySize ∧
      (writeNodeAt 27 abParentSized).length =
        13 + byteLength abParentSized.name + (writeProps abParentSized.properties).length) ∧
    (abParentSized.children ≠ [] →
      abParentSized.size = 13 + utf16Len abParentSized.name + abParentSized.propertySize +
        childSizeSum abParentSized.children + 13 ∧
      (writeNodeAt 27 abParentSized).drop ((writeNodeAt 27 abParentSized).length - 13) =
        List.replicate 13 0 ∧
      13 ≤ (writeNodeAt 27 abParentSized).length) :=
  c3_trailer_iff_children abParent abParentSized 27 rfl

/-- C4: for the single leaf named `X` with one Int32 property 42, the
size calculator computes header cost 14, property cost 5 and total 19,
and the writer emits exactly `endOffset = start + 19` (u32 LE),
`propCount = 1`, `propListLen = 5`, `nameLen = 1`, the byte `X`, the
Int32 type code 0x49 and 42 as four little-endian bytes, with no
trailer. -/
theorem c4_single_int32_leaf (off : Nat) (h : off + 19 < 2 ^ 32) :
    sizeNode xLeaf = some xLeafSized ∧
    xLeafSized.size = 19 ∧
    xLeafSized.propertySize = 5 ∧
    4 + 4 + 4 + 1 + utf16Len (jstr "X") = 14 ∧
    propListSize [⟨.int32, .num 42⟩] = some 5 ∧
    writeNodeAt off xLeafSized =
      leBytes 4 (off + 19) ++ leBytes 4 1 ++ leBytes 4 5 ++ [1] ++
      utf8Encode (jstr "X") ++ [0x49] ++ leBytes 4 42 := by
  refine ⟨rfl, rfl, rfl, rfl, rfl, ?_⟩
  have hm : (off + 19) % 2 ^ 32 = off + 19 := Nat.mod_eq_of_lt h
  calc writeNodeAt off xLeafSized
      = leBytes 4 ((off + 19) % 2 ^ 32) ++ [1, 0, 0, 0, 5, 0, 0, 0, 1, 88, 73, 42, 0, 0, 0] :=
        rfl
    _ = leBytes 4 (off + 19) ++ [1, 0, 0, 0, 5, 0, 0, 0, 1, 88, 73, 42, 0, 0, 0] := by
        rw [hm]
    _ = leBytes 4 (off + 19) ++ leBytes 4 1 ++ leBytes 4 5 ++ [1] ++
        utf8Encode (jstr "X") ++ [0x49] ++ leBytes 4 42 := by
        simp only [List.append_assoc]
        congr 1

/-- Witness for C4 at offset 27. -/
theorem c4_witness :
    sizeNode xLeaf = some xLeafSized ∧
    xLeafSized.size = 19 ∧
    xLeafSized.propertySize = 5 ∧
    4 + 4 + 4 + 1 + utf16Len (jstr "X") = 14 ∧
    propListSize [⟨.int32, .num 42⟩] = some 5 ∧
    writeNodeAt 27 xLeafSized =
      leBytes 4 (27 + 19) ++ leBytes 4 1 ++ leBytes 4 5 ++ [1] ++
      utf8Encode (jstr "X") ++ [0x49] ++ leBytes 4 42 :=
  c4_single_int32_leaf 27 (by decide)

/-- C5: on an empty top-level sequence the writer emits exactly the
27-byte preamble — the 21-byte magic `Kaydara FBX Binary` plus two
spaces and a NUL, the byte 0x1A, the byte 0x00, and the version 7400 as
u32 LE — and nothing else. -/
theorem c5_empty_sequence_preamble :
    fbxWrite [] = some preamble ∧
    preamble.length = 27 ∧
    preamble = [75, 97, 121, 100, 97, 114, 97, 32, 70, 66, 88, 32, 66, 105, 110, 97,
      114, 121, 32, 32, 0, 0x1A, 0x00, 232, 28, 0, 0] :=
  ⟨rfl, rfl, rfl⟩

/-- C6: with overwrite disabled and the destination existing, `write`
returns as a silent no-op — no directory creation and no bytes — while
with overwrite enabled, or a fresh destination, it creates the directory
and writes the serialized output. -/
theorem c6_overwrite_noop (roots : List FBXNodeRecord) :
    writeOp false true roots = ⟨false, none⟩ ∧
    writeOp true true roots = ⟨true, fbxWrite roots⟩ ∧
    writeOp false false roots = ⟨true, fbxWrite roots⟩ :=
  ⟨rfl, rfl, rfl⟩

/-- C7: a property with an array-typed descriptor has no well-defined
encoded size (the sizing pass dereferences the descriptor's nonexistent
`value` field and throws, modelled as `none`), the write switch emits
only the 1-byte type code for it, and sizing any tree containing such a
property yields no size at all. -/
theorem c7_array_types_unsupported (p : Property) (t : FBXNodeRecord)
    (hp : ptIsArray p.type = true) (ht : hasArrayProp t = true) :
    propEncodedSize p = none ∧
    writeProp p = [ptCode p.type] ∧
    sizeNode t = none :=
  ⟨propEncodedSize_none_of_array p hp, writeProp_array p hp, sizeNode_none_of_array t ht⟩

/-- Witness for C7 at a concrete Int32-array property. -/
theorem c7_witness :
    propEncodedSize arrProp = none ∧
    writeProp arrProp = [ptCode arrProp.type] ∧
    sizeNode arrNode = none :=
  c7_array_types_unsupported arrProp arrNode rfl rfl

/-- C8: for every configuration and clock/file-id input, `buildNodeTree`
produces exactly eleven root records, one of each kind, in the fixed
order FBXHeaderExtension, FileId, CreationTime, Creator, GlobalSettings,
Documents, References, Definitions, Objects, Connections, Takes. -/
theorem c8_eleven_roots (m : AppManifest) (cs ci cc : ClockState)
    (fid base : List Nat) :
    (buildNodeTree m cs ci cc fid base).map FBXNodeRecord.name =
      [jstr "FBXHeaderExtension", jstr "FileId", jstr "CreationTime", jstr "Creator",
       jstr "GlobalSettings", jstr "Documents", jstr "References", jstr "Definitions",
       jstr "Objects", jstr "Connections", jstr "Takes"] ∧
    (buildNodeTree m cs ci cc fid base).length = 11 :=
  ⟨rfl, rfl⟩

/-- C10: children are a `Set` keyed by object identity — re-adding the
same instance is ignored (one occurrence survives, so it is sized and
written once per parent) while a distinct instance is kept — and
`addProperty` allocates a fresh object per value, so adding the same
type/value pair twice keeps both copies. -/
theorem c10_set_identity_semantics (s : List Nat) (x y : Nat) (st : PropState)
    (t : PropertyType) (v : PValue)
    (hx : x ∉ s) (hy : y ∉ s) (hxy : x ≠ y) (hf : FreshIds st) :
    setAdd (setAdd s x) x = setAdd s x ∧
    (setAdd (setAdd s x) x).count x = 1 ∧
    (setAdd (setAdd s x) y).count x = 1 ∧
    (setAdd (setAdd s x) y).count y = 1 ∧
    (setAdd (setAdd s x) y).length = s.length + 2 ∧
    (addPropertyM (addPropertyM st t [v]) t [v]).props.map PropObj.prop =
      st.props.map PropObj.prop ++ [⟨t, v⟩, ⟨t, v⟩] := by
  have hadd : setAdd s x = s ++ [x] := by rw [setAdd, if_neg hx]
  have hmem : x ∈ setAdd s x := by rw [hadd]; simp
  have hidem : setAdd (setAdd s x) x = setAdd s x := by
    rw [setAdd, if_pos hmem]
  have hymem : y ∉ setAdd s x := by
    rw [hadd]
    simp [hy, Ne.symm hxy]
  have haddy : setAdd (setAdd s x) y = (s ++ [x]) ++ [y] := by
    rw [setAdd, if_neg hymem, hadd]
  have hcx : (setAdd s x).count x = 1 := by
    rw [hadd, List.count_append]
    simp [List.count_eq_zero.mpr hx]
  refine ⟨hidem, by rw [hidem]; exact hcx, ?_, ?_, ?_, ?_⟩
  · rw [haddy, List.count_append]
    have : ((s ++ [x]).count x) = 1 := by rw [← hadd]; exact hcx
    simp [this, List.count_singleton, hxy]
  · rw [haddy, List.count_append, List.count_append]
    simp [List.count_eq_zero.mpr hy, List.count_singleton, Ne.symm hxy]
  · rw [haddy]
    simp
  · have fresh1 : (⟨st.nextId, ⟨t, v⟩⟩ : PropObj) ∉ st.props := by
      intro hmem1
      have h1 : st.nextId < st.nextId := hf _ hmem1
      omega
    have hstep1 : addPropertyM st t [v] =
        ⟨st.props ++ [⟨st.nextId, ⟨t, v⟩⟩], st.nextId + 1⟩ := by
      show (⟨propSetAdd st.props ⟨st.nextId, ⟨t, v⟩⟩, st.nextId + 1⟩ : PropState) = _
      rw [propSetAdd, if_neg fresh1]
    have fresh2 : (⟨st.nextId + 1, ⟨t, v⟩⟩ : PropObj) ∉
        st.props ++ [⟨st.nextId, ⟨t, v⟩⟩] := by
      intro hmem2
      rcases List.mem_append.mp hmem2 with hmem2 | hmem2
      · have h2 : st.nextId + 1 < st.nextId := hf _ hmem2
        omega
      · simp only [List.mem_singleton] at hmem2
        have h3 : st.nextId + 1 = st.nextId := congrArg PropObj.id hmem2
        omega
    have hstep2 : addPropertyM ⟨st.props ++ [⟨st.nextId, ⟨t, v⟩⟩], st.nextId + 1⟩ t [v] =
        ⟨(st.props ++ [⟨st.nextId, ⟨t, v⟩⟩]) ++ [⟨st.nextId + 1, ⟨t, v⟩⟩],
          st.nextId + 2⟩ := by
      show (⟨propSetAdd (st.props ++ [⟨st.nextId, ⟨t, v⟩⟩]) ⟨st.nextId + 1, ⟨t, v⟩⟩,
        st.nextId + 2⟩ : PropState) = _
      rw [propSetAdd, if_neg fresh2]
    rw [hstep1, hstep2]
    simp

/-- C9 (amended): determinism up to the volatile fields, for every pair
of export runs.  For any configuration, output basename and any two runs
(clock readings, 16 random file-id bytes each) whose formatted timestamp
strings have equal UTF-8 byte lengths and whose file-id buffers have
equal length, both runs serialize: their outputs decompose into the same
number of chunks (preamble, per-node header-plus-properties, trailers),
the chunk decompositions flatten to the exact writer outputs, and
corresponding chunks have equal length and are either identical or differ
only inside the payload bytes of the designated volatile properties (the
seven CreationTimeStamp integers, the two DateTime_GMT strings, the
file-id buffer and the CreationTime string) — hence the outputs are
byte-identical outside the file-id and timestamp fields and have equal
total length. -/
theorem c9_amended (fuel : Nat) (m : AppManifest) (base0 : List Nat)
    (cS cI cT cS2 cI2 cT2 : ClockState) (f f2 : List Nat)
    (h1 : byteLength (sceneTimeGMT cI) = byteLength (sceneTimeGMT cI2))
    (h2 : byteLength (creationTimeGMT cT) = byteLength (creationTimeGMT cT2))
    (h3 : f.length = f2.length)
    (h4 : (sizeChildren (buildNodeTree m cS cI cT f base0)).isSome = true)
    (h5 : chunksFit fuel (buildNodeTree m cS cI cT f base0) = true) :
    ∃ ch1 ch2 : List (List Nat),
      fbxChunks fuel (buildNodeTree m cS cI cT f base0) = some ch1 ∧
      fbxChunks fuel (buildNodeTree m cS2 cI2 cT2 f2 base0) = some ch2 ∧
      List.Forall₂ (chunkMatchV (volatilePairs cS cI cT f cS2 cI2 cT2 f2)) ch1 ch2 ∧
      fbxOutput m cS cI cT f base0 = some ch1.flatten ∧
      fbxOutput m cS2 cI2 cT2 f2 base0 = some ch2.flatten ∧
      ch1.flatten.length = ch2.flatten.length := by
  obtain ⟨ss1, hss1⟩ : ∃ ss1,
      sizeChildren (buildNodeTree m cS cI cT f base0) = some ss1 := by
    cases hs : sizeChildren (buildNodeTree m cS cI cT f base0) with
    | none => rw [hs] at h4; simp at h4
    | some ss => exact ⟨ss, rfl⟩
  have hrel : List.Forall₂ (TreeRelV (volatilePairs cS cI cT f cS2 cI2 cT2 f2))
      (buildNodeTree m cS cI cT f base0) (buildNodeTree m cS2 cI2 cT2 f2 base0) :=
    buildNodeTree_relV _ m cS cI cT cS2 cI2 cT2 f f2 base0
      (by simp [volatilePairs]) (by simp [volatilePairs]) (by simp [volatilePairs])
      (by simp [volatilePairs]) (by simp [volatilePairs]) (by simp [volatilePairs])
      (by simp [volatilePairs]) (by simp [volatilePairs]) (by simp [volatilePairs])
      (by simp [volatilePairs]) h1 h2 h3
  obtain ⟨ss2, hss2, hsrel⟩ := sizeChildren_congr _ _ _ hrel ss1 hss1
  obtain ⟨hcrel, hcoff⟩ := writeChunksL_congr _ fuel 27 ss1 ss2 hsrel
  have hdep1 : sdepthList ss1 ≤ fuel := by
    rw [chunksFit, hss1] at h5
    simpa using h5
  have hdep2 : sdepthList ss2 ≤ fuel := by
    rw [← sdepthList_congr _ ss1 ss2 hsrel]
    exact hdep1
  refine ⟨preamble :: (writeChunksL fuel 27 ss1).1,
    preamble :: (writeChunksL fuel 27 ss2).1, ?_, ?_, ?_, ?_, ?_, ?_⟩
  · rw [fbxChunks, hss1]
  · rw [fbxChunks, hss2]
  · exact List.Forall₂.cons (chunkMatchV_refl _ _) hcrel
  · show fbxWrite (buildNodeTree m cS cI cT f base0) = _
    rw [fbxWrite, hss1, List.flatten_cons, (writeChunksL_flatten fuel 27 ss1 hdep1).1]
  · show fbxWrite (buildNodeTree m cS2 cI2 cT2 f2 base0) = _
    rw [fbxWrite, hss2, List.flatten_cons, (writeChunksL_flatten fuel 27 ss2 hdep2).1]
  · exact chunkMatch_flatten_length _ _ _
      (List.Forall₂.cons (chunkMatchV_refl _ _) hcrel)

set_option maxRecDepth 100000 in
set_option maxHeartbeats 16000000 in
/-- Witness for C9 (amended) at two concrete runs that differ in every
clock field and every file-id byte while keeping equal digit counts, so
each hypothesis is discharged by evaluation and the conclusion is the
theorem applied to them. -/
theorem c9_witness :
    byteLength (sceneTimeGMT clkRunA) = byteLength (sceneTimeGMT clkRunB) ∧
    byteLength (creationTimeGMT clkRunA) = byteLength (creationTimeGMT clkRunB) ∧
    fidRunA.length = fidRunB.length ∧
    (sizeChildren (buildNodeTree demoManifest clkRunA clkRunA clkRunA fidRunA
      demoBase)).isSome = true ∧
    chunksFit 20 (buildNodeTree demoManifest clkRunA clkRunA clkRunA fidRunA
      demoBase) = true ∧
    (∃ ch1 ch2 : List (List Nat),
      fbxChunks 20 (buildNodeTree demoManifest clkRunA clkRunA clkRunA fidRunA
        demoBase) = some ch1 ∧
      fbxChunks 20 (buildNodeTree demoManifest clkRunB clkRunB clkRunB fidRunB
        demoBase) = some ch2 ∧
      List.Forall₂ (chunkMatchV (volatilePairs clkRunA clkRunA clkRunA fidRunA
        clkRunB clkRunB clkRunB fidRunB)) ch1 ch2 ∧
      fbxOutput demoManifest clkRunA clkRunA clkRunA fidRunA demoBase =
        some ch1.flatten ∧
      fbxOutput demoManifest clkRunB clkRunB clkRunB fidRunB demoBase =
        some ch2.flatten ∧
      ch1.flatten.length = ch2.flatten.length) := by
  have d1 : byteLength (sceneTimeGMT clkRunA) = byteLength (sceneTimeGMT clkRunB) := by
    decide
  have d2 : byteLength (creationTimeGMT clkRunA) =
      byteLength (creationTimeGMT clkRunB) := by decide
  have d3 : fidRunA.length = fidRunB.length := by decide
  have d4 : (sizeChildren (buildNodeTree demoManifest clkRunA clkRunA clkRunA fidRunA
      demoBase)).isSome = true := by decide
  have d5 : chunksFit 20 (buildNodeTree demoManifest clkRunA clkRunA clkRunA fidRunA
      demoBase) = true := by decide
  exact ⟨d1, d2, d3, d4, d5,
    c9_amended 20 demoManifest demoBase clkRunA clkRunA clkRunA clkRunB clkRunB clkRunB
      fidRunA fidRunB d1 d2 d3 d4 d5⟩

set_option maxRecDepth 100000 in
set_option maxHeartbeats 16000000 in
/-- C9 counterexample: two full export runs with identical input data
and configuration, differing only in the clock reading (UTC hour 9
versus 19; even the 16 file-id bytes are identical), produce outputs of
different total lengths (8996 versus 8999 bytes: the unpadded hour digit
makes each of the three formatted timestamp strings one byte longer) and
already differ at byte 27 — the first byte of the FBXHeaderExtension
record's end-offset field, which is not a file-id or timestamp byte, as
the last two conjuncts show by exhibiting the full header chunk both
outputs start with.  So bytes outside the file-id and timestamp fields
are not identical across runs, refuting the claim as stated. -/
theorem c9_counterexample :
    ((fbxWrite rootsHour9).getD []).length = 8996 ∧
    ((fbxWrite rootsHour19).getD []).length = 8999 ∧
    ((fbxWrite rootsHour9).getD []).get? 27 = some 5 ∧
    ((fbxWrite rootsHour19).getD []).get? 27 = some 7 ∧
    ((fbxChunks 20 rootsHour9).getD []).get? 1 =
      some (leBytes 4 1797 ++ leBytes 4 0 ++ leBytes 4 0 ++ [18] ++
        utf8Encode (jstr "FBXHeaderExtension")) ∧
    ((fbxChunks 20 rootsHour19).getD []).get? 1 =
      some (leBytes 4 1799 ++ leBytes 4 0 ++ leBytes 4 0 ++ [18] ++
        utf8Encode (jstr "FBXHeaderExtension")) := by
  refine ⟨?_, ?_, by decide, by decide, by decide, by decide⟩
  · rw [output_eq_chunks_flatten 20 rootsHour9 (by decide) (by decide),
      List.length_flatten]
    decide
  · rw [output_eq_chunks_flatten 20 rootsHour19 (by decide) (by decide),
      List.length_flatten]
    decide

/-- Witness for C10 at concrete identities and a concrete property. -/
theorem c10_witness :
    setAdd (setAdd [] 0) 0 = setAdd [] 0 ∧
    (setAdd (setAdd [] 0) 0).count 0 = 1 ∧
    (setAdd (setAdd [] 0) 1).count 0 = 1 ∧
    (setAdd (setAdd [] 0) 1).count 1 = 1 ∧
    (setAdd (setAdd [] 0) 1).length = ([] : List Nat).length + 2 ∧
    (addPropertyM (addPropertyM ⟨[], 0⟩ .int32 [.num 0]) .int32 [.num 0]).props.map
        PropObj.prop =
      List.map PropObj.prop ([] : List PropObj) ++ [⟨.int32, .num 0⟩, ⟨.int32, .num 0⟩] :=
  c10_set_identity_semantics [] 0 1 ⟨[], 0⟩ .int32 (.num 0) (by simp) (by simp)
    (by decide) (by intro p hp; simp at hp)

end FBX
